import Mathlib

/-!
Shallow embedding of the validation core of the eccoin repository
(src/main.cpp): transaction finality and sequence locks, the
transaction-admission pipeline, block context-free checks, input checking
at connection time, and the persistent-state flush controller.

External collaborators (hashing, the script interpreter, the policy
header constants, the coin database) are represented as oracle parameters
or as constants modelled from the specification, as noted at each
definition.
-/

/-- Scripts are opaque byte sequences to the validation core; their
structure is only inspected by external oracles (sig-op counting,
pay-to-script-hash detection, the script verifier). -/
abbrev Script := List Nat

/-- A reference to a prior transaction output: (transaction id, output
index).  Transaction ids (hashes) are modelled as abstract numeric ids. -/
structure OutPoint where
  txHash : Nat
  n : Nat
deriving DecidableEq, Repr

/-- A transaction input: previous output reference, unlocking script and
sequence number (uint32), as in the source transaction type. -/
structure CTxIn where
  prevout : OutPoint
  scriptSig : Script
  nSequence : Nat
deriving DecidableEq, Repr

/-- A transaction output: value plus locking script. -/
structure CTxOut where
  nValue : Int
  scriptPubKey : Script
deriving DecidableEq, Repr

/-- Modelled from the spec: the transaction record.  The coinbase /
coinstake markers and the transaction id (hash) are abstract fields; in
the repository they are methods of the transaction class defined in a
header that is not part of the sampled source.  `nVersion` is a signed
32-bit integer, `nTime` and `nLockTime` are unsigned 32-bit values
modelled as naturals.  Version-2 transactions reference an auxiliary
service transaction by hash (`serviceReferenceHash`). -/
structure CTransaction where
  nVersion : Int
  nTime : Nat
  nLockTime : Nat
  vin : List CTxIn
  vout : List CTxOut
  serviceReferenceHash : Nat
  txid : Nat
  isCoinBase : Bool
  isCoinStake : Bool
deriving DecidableEq, Repr

/-- Modelled from the spec: an unspent output record holds the owning
transaction's output, its creation height, and whether its parent
transaction was a coinbase/coinstake (the spec's data model records this
parentage as one attribute of the coin; the coin class itself is defined
outside the sampled source). -/
structure Coin where
  out : CTxOut
  nHeight : Int
  fCoinBase : Bool
deriving DecidableEq, Repr

/-- Modelled from the spec: an auxiliary service transaction, referenced
by hash from version-2 transactions; its internals are outside the
validation core. -/
structure CServiceTransaction where
  stxid : Nat
deriving DecidableEq, Repr

/-- The mempool, reduced to what the admission pipeline inspects: the
list of resident transactions (`exists`, `mapNextTx` conflict lookup and
the in-pool-outputs coin view are all derived from it). -/
structure MemPool where
  txs : List CTransaction
deriving DecidableEq, Repr

/-- A block: header fields used by the context-free checks plus the
ordered transaction list.  `fChecked` is the cached result flag mutated
by CheckBlock; `isProofOfStake` is the proof-of-stake discriminant
(modelled from the spec as an abstract marker). -/
structure Block where
  vtx : List CTransaction
  hashMerkleRoot : Nat
  nTime : Int
  fChecked : Bool
  isProofOfStake : Bool
deriving DecidableEq, Repr

/-- A block-index context as consumed by the sequence-lock evaluator:
its own height, its parent's median-time-past, and the
median-time-past of each ancestor height (GetAncestor composed with
GetMedianTimePast, modelled from the spec's block-index tree). -/
structure BlockIndexModel where
  nHeight : Int
  prevMedianTimePast : Int
  ancestorMedianTimePast : Int → Int

/-- Validation outcome, mirroring CValidationState: valid, invalid with a
DoS score / reject code / reason string, or an internal error. -/
inductive VState where
  | valid : VState
  | invalid (nDoS : Nat) (rejectCode : Nat) (reason : String) : VState
  | errored (msg : String) : VState
deriving DecidableEq, Repr

/-- Reason string of a validation state, if any. -/
def VState.reasonOf : VState → Option String
  | .valid => none
  | .invalid _ _ r => some r
  | .errored m => some m

/-- Modelled from the spec: the locktime threshold constant separating
height interpretation from timestamp interpretation of nLockTime
(defined in a header outside the sampled source; standard value). -/
def LOCKTIME_THRESHOLD : Int := 500000000

/-- Modelled from the spec: the final sequence sentinel value
(CTxIn::SEQUENCE_FINAL, defined outside the sampled source). -/
def SEQUENCE_FINAL : Nat := 0xffffffff

/-- Modelled from the spec: the high bit of a sequence number disables
its relative-lock-time meaning (CTxIn::SEQUENCE_LOCKTIME_DISABLE_FLAG). -/
def SEQUENCE_LOCKTIME_DISABLE_FLAG : Nat := 0x80000000

/-- Modelled from the spec: the type bit selecting time-based over
height-based relative locks (CTxIn::SEQUENCE_LOCKTIME_TYPE_FLAG). -/
def SEQUENCE_LOCKTIME_TYPE_FLAG : Nat := 0x00400000

/-- Modelled from the spec: mask extracting the encoded lock value from
a sequence number (CTxIn::SEQUENCE_LOCKTIME_MASK). -/
def SEQUENCE_LOCKTIME_MASK : Nat := 0x0000ffff

/-- Modelled from the spec: time-based relative locks are in 512-second
units, i.e. shifted left by 9 bits
(CTxIn::SEQUENCE_LOCKTIME_GRANULARITY). -/
def SEQUENCE_LOCKTIME_GRANULARITY : Nat := 9

/-- Modelled from the spec: the verify-sequence locktime flag bit
(defined outside the sampled source; only its identity as a bit
matters). -/
def LOCKTIME_VERIFY_SEQUENCE : Nat := 1

/-- Modelled from the spec: the median-time-past locktime flag bit. -/
def LOCKTIME_MEDIAN_TIME_PAST : Nat := 2

/-- Modelled from the spec: the standard locktime flag set used by the
admission pipeline (verify-sequence plus median-time-past). -/
def STANDARD_LOCKTIME_VERIFY_FLAGS : Nat :=
  LOCKTIME_VERIFY_SEQUENCE ||| LOCKTIME_MEDIAN_TIME_PAST

/-- Modelled from the spec: in-pool coins are reported at this sentinel
height by the mempool-backed coin view. -/
def MEMPOOL_HEIGHT : Int := 0x7fffffff

/-- The value of a signed 32-bit version tag reinterpreted as an
unsigned 32-bit integer, as done by the BIP68 gate in the source
(static_cast to uint32_t). -/
def uint32OfVersion (v : Int) : Nat := (v % 4294967296).toNat

/-- IsFinalTx, translated from src/main.cpp lines 186-204: absolute
nLockTime finality against a block height and block time. -/
def IsFinalTx (tx : CTransaction) (nBlockHeight : Int) (nBlockTime : Int) : Bool :=
  if tx.nLockTime = 0 then
    true
  else if (tx.nLockTime : Int) <
      (if (tx.nLockTime : Int) < LOCKTIME_THRESHOLD then nBlockHeight else nBlockTime) then
    true
  else
    tx.vin.all (fun txin => txin.nSequence = SEQUENCE_FINAL)

/-- One step of the CalculateSequenceLocks input loop (src/main.cpp lines
271-311): an input with the disable bit contributes nothing; the type
bit selects a time-based constraint (ancestor median-time-past plus the
encoded 512-second units, minus one) or a height-based constraint (coin
height plus raw units, minus one); each is folded in by max. -/
def seqLockStep (block : BlockIndexModel) (txin : CTxIn) (nCoinHeight : Int)
    (acc : Int × Int) : Int × Int :=
  if txin.nSequence &&& SEQUENCE_LOCKTIME_DISABLE_FLAG ≠ 0 then
    acc
  else if txin.nSequence &&& SEQUENCE_LOCKTIME_TYPE_FLAG ≠ 0 then
    let nCoinTime := block.ancestorMedianTimePast (max (nCoinHeight - 1) 0)
    (acc.1,
     max acc.2 (nCoinTime +
       (((txin.nSequence &&& SEQUENCE_LOCKTIME_MASK) <<< SEQUENCE_LOCKTIME_GRANULARITY : Nat) : Int) - 1))
  else
    (max acc.1 (nCoinHeight + ((txin.nSequence &&& SEQUENCE_LOCKTIME_MASK : Nat) : Int) - 1),
     acc.2)

/-- The CalculateSequenceLocks loop over the paired input / previous
height lists (the source iterates indices under the assertion that both
vectors have the same length; the source's zeroing of disabled entries
in prevHeights does not feed back into the computed pair, as each index
is read before it may be written). -/
def seqLockLoop (block : BlockIndexModel) :
    List CTxIn → List Int → Int × Int → Int × Int
  | [], _, acc => acc
  | _, [], acc => acc
  | txin :: vins, h :: hs, acc =>
      seqLockLoop block vins hs (seqLockStep block txin h acc)

/-- CalculateSequenceLocks, translated from src/main.cpp lines 244-314:
computes the (last invalid height, last invalid time) pair for BIP68
relative locks; inactive (returning (-1,-1)) unless the version read as
unsigned is at least 2 and the verify-sequence flag is set. -/
def CalculateSequenceLocks (tx : CTransaction) (flags : Nat)
    (prevHeights : List Int) (block : BlockIndexModel) : Int × Int :=
  let fEnforceBIP68 :=
    2 ≤ uint32OfVersion tx.nVersion ∧ flags &&& LOCKTIME_VERIFY_SEQUENCE ≠ 0
  if fEnforceBIP68 then
    seqLockLoop block tx.vin prevHeights (-1, -1)
  else
    (-1, -1)

/-- EvaluateSequenceLocks, translated from src/main.cpp lines 316-324:
the lock pair is satisfied by a candidate block (whose parent is
non-null, per the source assertion) iff neither component reaches the
block's height / its parent's median-time-past. -/
def EvaluateSequenceLocks (block : BlockIndexModel) (lockPair : Int × Int) : Bool :=
  if lockPair.1 ≥ block.nHeight ∨ lockPair.2 ≥ block.prevMedianTimePast then
    false
  else
    true

/-- SequenceLocks, translated from src/main.cpp lines 326-329. -/
def SequenceLocks (tx : CTransaction) (flags : Nat) (prevHeights : List Int)
    (block : BlockIndexModel) : Bool :=
  EvaluateSequenceLocks block (CalculateSequenceLocks tx flags prevHeights block)

/-- C1: IsFinalTx returns true iff nLockTime is zero, or nLockTime is
strictly below the block height when under the locktime threshold
(strictly below the block time otherwise), or every input carries the
final sequence sentinel; in particular nLockTime = 0 always yields true,
and all-final input sequences yield true regardless of nLockTime. -/
theorem c1_isFinalTx_absolute_finality :
    ∀ (tx : CTransaction) (nBlockHeight nBlockTime : Int),
      (IsFinalTx tx nBlockHeight nBlockTime = true ↔
        (tx.nLockTime = 0 ∨
         (if (tx.nLockTime : Int) < LOCKTIME_THRESHOLD
            then (tx.nLockTime : Int) < nBlockHeight
            else (tx.nLockTime : Int) < nBlockTime) ∨
         ∀ txin ∈ tx.vin, txin.nSequence = SEQUENCE_FINAL)) ∧
      (tx.nLockTime = 0 → IsFinalTx tx nBlockHeight nBlockTime = true) ∧
      ((∀ txin ∈ tx.vin, txin.nSequence = SEQUENCE_FINAL) →
        IsFinalTx tx nBlockHeight nBlockTime = true) := by
  intro tx nBlockHeight nBlockTime
  refine ⟨?_, ?_, ?_⟩
  · by_cases h0 : tx.nLockTime = 0
    · simp [IsFinalTx, h0]
    · by_cases hc : (tx.nLockTime : Int) < LOCKTIME_THRESHOLD
      · by_cases h1 : (tx.nLockTime : Int) < nBlockHeight
        · simp [IsFinalTx, h0, hc, h1]
        · simp [IsFinalTx, h0, hc, h1, List.all_eq_true]
      · by_cases h1 : (tx.nLockTime : Int) < nBlockTime
        · simp [IsFinalTx, h0, hc, h1]
        · simp [IsFinalTx, h0, hc, h1, List.all_eq_true]
  · intro h0
    simp [IsFinalTx, h0]
  · intro hall
    by_cases h0 : tx.nLockTime = 0
    · simp [IsFinalTx, h0]
    · simp [IsFinalTx, h0, List.all_eq_true]
      exact Or.inr fun txin hm => hall txin hm

/-- C1 witness: a concrete transaction with nLockTime = 5, evaluated at
height 3 and time 0, is final exactly because its single input carries
the final sequence sentinel. -/
theorem c1_isFinalTx_absolute_finality_witness :
    IsFinalTx
      { nVersion := 1, nTime := 0, nLockTime := 5,
        vin := [{ prevout := { txHash := 0, n := 0 }, scriptSig := [], nSequence := SEQUENCE_FINAL }],
        vout := [], serviceReferenceHash := 0, txid := 1,
        isCoinBase := false, isCoinStake := false } 3 0 = true := by
  exact (c1_isFinalTx_absolute_finality _ 3 0).2.2 (by decide)

/-- C2: sequence-lock evaluation against a candidate block succeeds iff
the block's height strictly exceeds the derived minimum height and the
parent's median-time-past strictly exceeds the derived minimum time;
equality in either component is a failure. -/
theorem c2_evaluateSequenceLocks_strict :
    ∀ (block : BlockIndexModel) (lockPair : Int × Int),
      (EvaluateSequenceLocks block lockPair = true ↔
        (lockPair.1 < block.nHeight ∧ lockPair.2 < block.prevMedianTimePast)) ∧
      (lockPair.1 = block.nHeight → EvaluateSequenceLocks block lockPair = false) ∧
      (lockPair.2 = block.prevMedianTimePast → EvaluateSequenceLocks block lockPair = false) := by
  intro block lockPair
  refine ⟨?_, ?_, ?_⟩
  · unfold EvaluateSequenceLocks
    split_ifs with h
    · simp only [false_iff]
      intro hc
      rcases h with h | h
      · omega
      · omega
    · simp only [true_iff]
      push_neg at h
      exact ⟨by omega, by omega⟩
  · intro h
    unfold EvaluateSequenceLocks
    split_ifs with hcond
    · rfl
    · exact absurd (Or.inl (le_of_eq h.symm)) hcond
  · intro h
    unfold EvaluateSequenceLocks
    split_ifs with hcond
    · rfl
    · exact absurd (Or.inr (le_of_eq h.symm)) hcond

/-- C2 witness: on a block of height 10 with parent median-time-past
100, the lock pair (9, 99) passes and the tied pair (10, 99) fails. -/
theorem c2_evaluateSequenceLocks_strict_witness :
    EvaluateSequenceLocks
      { nHeight := 10, prevMedianTimePast := 100,
        ancestorMedianTimePast := fun _ => 0 } (9, 99) = true ∧
    EvaluateSequenceLocks
      { nHeight := 10, prevMedianTimePast := 100,
        ancestorMedianTimePast := fun _ => 0 } (10, 99) = false := by
  constructor
  · exact (c2_evaluateSequenceLocks_strict
      { nHeight := 10, prevMedianTimePast := 100,
        ancestorMedianTimePast := fun _ => 0 } (9, 99)).1.mpr (by norm_num)
  · exact (c2_evaluateSequenceLocks_strict
      { nHeight := 10, prevMedianTimePast := 100,
        ancestorMedianTimePast := fun _ => 0 } (10, 99)).2.1 rfl

/-- Clearing the high disable bit of a 32-bit sequence number: bitwise
and with the complement mask 0x7fffffff. -/
def clearSequenceDisableBit (s : Nat) : Nat := s &&& 0x7fffffff

/-- Clearing the disable bit on the input at position k of an input
list (other inputs unchanged). -/
def clearDisableAt : List CTxIn → Nat → List CTxIn
  | [], _ => []
  | txin :: rest, 0 =>
      { txin with nSequence := clearSequenceDisableBit txin.nSequence } :: rest
  | txin :: rest, k + 1 => txin :: clearDisableAt rest k

theorem clearSequenceDisableBit_disable (s : Nat) :
    clearSequenceDisableBit s &&& SEQUENCE_LOCKTIME_DISABLE_FLAG = 0 := by
  unfold clearSequenceDisableBit SEQUENCE_LOCKTIME_DISABLE_FLAG
  rw [Nat.land_assoc, show (2147483647 &&& 2147483648 : Nat) = 0 by decide, Nat.and_zero]

theorem clearSequenceDisableBit_type (s : Nat) :
    clearSequenceDisableBit s &&& SEQUENCE_LOCKTIME_TYPE_FLAG =
      s &&& SEQUENCE_LOCKTIME_TYPE_FLAG := by
  unfold clearSequenceDisableBit SEQUENCE_LOCKTIME_TYPE_FLAG
  rw [Nat.land_assoc, show (2147483647 &&& 4194304 : Nat) = 4194304 by decide]

theorem clearSequenceDisableBit_mask (s : Nat) :
    clearSequenceDisableBit s &&& SEQUENCE_LOCKTIME_MASK =
      s &&& SEQUENCE_LOCKTIME_MASK := by
  unfold clearSequenceDisableBit SEQUENCE_LOCKTIME_MASK
  rw [Nat.land_assoc, show (2147483647 &&& 65535 : Nat) = 65535 by decide]

theorem seqLockStep_ge (block : BlockIndexModel) (txin : CTxIn) (h : Int)
    (acc : Int × Int) :
    acc.1 ≤ (seqLockStep block txin h acc).1 ∧
    acc.2 ≤ (seqLockStep block txin h acc).2 := by
  unfold seqLockStep
  split_ifs with h1 h2
  · exact ⟨le_refl _, le_refl _⟩
  · exact ⟨le_refl _, le_max_left _ _⟩
  · exact ⟨le_max_left _ _, le_refl _⟩

theorem seqLockStep_mono (block : BlockIndexModel) (txin : CTxIn) (h : Int)
    (a b : Int × Int) (h1 : a.1 ≤ b.1) (h2 : a.2 ≤ b.2) :
    (seqLockStep block txin h a).1 ≤ (seqLockStep block txin h b).1 ∧
    (seqLockStep block txin h a).2 ≤ (seqLockStep block txin h b).2 := by
  unfold seqLockStep
  split_ifs with hd ht
  · exact ⟨h1, h2⟩
  · exact ⟨h1, max_le_max h2 (le_refl _)⟩
  · exact ⟨max_le_max h1 (le_refl _), h2⟩

theorem seqLockLoop_mono (block : BlockIndexModel) :
    ∀ (vins : List CTxIn) (hs : List Int) (a b : Int × Int),
      a.1 ≤ b.1 → a.2 ≤ b.2 →
      (seqLockLoop block vins hs a).1 ≤ (seqLockLoop block vins hs b).1 ∧
      (seqLockLoop block vins hs a).2 ≤ (seqLockLoop block vins hs b).2 := by
  intro vins
  induction vins with
  | nil =>
      intro hs a b h1 h2
      simp only [seqLockLoop]
      exact ⟨h1, h2⟩
  | cons txin rest ih =>
      intro hs a b h1 h2
      cases hs with
      | nil =>
          simp only [seqLockLoop]
          exact ⟨h1, h2⟩
      | cons h hs =>
          simp only [seqLockLoop]
          have hstep := seqLockStep_mono block txin h a b h1 h2
          exact ih hs _ _ hstep.1 hstep.2

theorem seqLockStep_clear_of_enabled (block : BlockIndexModel) (txin : CTxIn)
    (h : Int) (acc : Int × Int)
    (hd : txin.nSequence &&& SEQUENCE_LOCKTIME_DISABLE_FLAG = 0) :
    seqLockStep block
      { txin with nSequence := clearSequenceDisableBit txin.nSequence } h acc =
    seqLockStep block txin h acc := by
  unfold seqLockStep
  simp only [clearSequenceDisableBit_disable, clearSequenceDisableBit_type,
    clearSequenceDisableBit_mask, hd]

theorem seqLockLoop_clear_ge (block : BlockIndexModel) :
    ∀ (vins : List CTxIn) (k : Nat) (hs : List Int) (acc : Int × Int),
      (seqLockLoop block vins hs acc).1 ≤
        (seqLockLoop block (clearDisableAt vins k) hs acc).1 ∧
      (seqLockLoop block vins hs acc).2 ≤
        (seqLockLoop block (clearDisableAt vins k) hs acc).2 := by
  intro vins
  induction vins with
  | nil => intro k hs acc; simp [clearDisableAt, seqLockLoop]
  | cons txin rest ih =>
      intro k hs acc
      cases k with
      | zero =>
          cases hs with
          | nil => simp [clearDisableAt, seqLockLoop]
          | cons h hs =>
              simp only [clearDisableAt, seqLockLoop]
              by_cases hd : txin.nSequence &&& SEQUENCE_LOCKTIME_DISABLE_FLAG = 0
              · rw [seqLockStep_clear_of_enabled block txin h acc hd]
                exact ⟨le_refl _, le_refl _⟩
              · have hold : seqLockStep block txin h acc = acc := by
                  unfold seqLockStep
                  rw [if_pos hd]
                rw [hold]
                have hge := seqLockStep_ge block
                  { txin with nSequence := clearSequenceDisableBit txin.nSequence } h acc
                exact seqLockLoop_mono block rest hs _ _ hge.1 hge.2
      | succ k =>
          cases hs with
          | nil => simp [clearDisableAt, seqLockLoop]
          | cons h hs =>
              simp only [clearDisableAt, seqLockLoop]
              exact ih k hs (seqLockStep block txin h acc)

/-- C7: for a version-at-least-2 transaction evaluated with the
verify-sequence flag set, clearing the high disable bit on any one
input's sequence number can only raise or keep equal — never lower —
each component of the (minimum height, minimum time) pair computed by
CalculateSequenceLocks. -/
theorem c7_calculateSequenceLocks_monotone
    (tx : CTransaction) (flags : Nat) (prevHeights : List Int)
    (block : BlockIndexModel) (k : Nat)
    (hver : 2 ≤ uint32OfVersion tx.nVersion)
    (hflag : flags &&& LOCKTIME_VERIFY_SEQUENCE ≠ 0) :
    (CalculateSequenceLocks tx flags prevHeights block).1 ≤
      (CalculateSequenceLocks { tx with vin := clearDisableAt tx.vin k }
        flags prevHeights block).1 ∧
    (CalculateSequenceLocks tx flags prevHeights block).2 ≤
      (CalculateSequenceLocks { tx with vin := clearDisableAt tx.vin k }
        flags prevHeights block).2 := by
  unfold CalculateSequenceLocks
  simp only [if_pos (And.intro hver hflag)]
  exact seqLockLoop_clear_ge block tx.vin k prevHeights (-1, -1)

/-- C7 witness: a concrete version-2 transaction with one
height-lock-disabled input; clearing the bit raises the minimum height
from -1 to 10 and keeps the minimum time at -1. -/
theorem c7_calculateSequenceLocks_monotone_witness :
    (CalculateSequenceLocks
      { nVersion := 2, nTime := 0, nLockTime := 0,
        vin := [{ prevout := { txHash := 0, n := 0 }, scriptSig := [],
                  nSequence := 0x80000005 }],
        vout := [], serviceReferenceHash := 0, txid := 1,
        isCoinBase := false, isCoinStake := false }
      STANDARD_LOCKTIME_VERIFY_FLAGS [7]
      { nHeight := 50, prevMedianTimePast := 0,
        ancestorMedianTimePast := fun _ => 0 }).1 ≤
    (CalculateSequenceLocks
      { nVersion := 2, nTime := 0, nLockTime := 0,
        vin := clearDisableAt
          [{ prevout := { txHash := 0, n := 0 }, scriptSig := [],
             nSequence := 0x80000005 }] 0,
        vout := [], serviceReferenceHash := 0, txid := 1,
        isCoinBase := false, isCoinStake := false }
      STANDARD_LOCKTIME_VERIFY_FLAGS [7]
      { nHeight := 50, prevMedianTimePast := 0,
        ancestorMedianTimePast := fun _ => 0 }).1 := by
  exact (c7_calculateSequenceLocks_monotone
    { nVersion := 2, nTime := 0, nLockTime := 0,
      vin := [{ prevout := { txHash := 0, n := 0 }, scriptSig := [],
                nSequence := 0x80000005 }],
      vout := [], serviceReferenceHash := 0, txid := 1,
      isCoinBase := false, isCoinStake := false }
    STANDARD_LOCKTIME_VERIFY_FLAGS [7]
    { nHeight := 50, prevMedianTimePast := 0,
      ancestorMedianTimePast := fun _ => 0 } 0
    (by decide) (by decide)).1

/-- Modelled from the spec: reject code for consensus-invalid objects
(numeric severity codes live in a header outside the sampled source). -/
def REJECT_INVALID : Nat := 16

/-- Modelled from the spec: reject code for policy/standardness
violations. -/
def REJECT_NONSTANDARD : Nat := 64

/-- Modelled from the spec: reject code for fee-related rejections. -/
def REJECT_INSUFFICIENTFEE : Nat := 66

/-- Modelled from the spec: reject code for the absurd-fee sanity
check. -/
def REJECT_HIGHFEE : Nat := 256

/-- Modelled from the spec: internal code for objects already known. -/
def REJECT_ALREADY_KNOWN : Nat := 257

/-- Modelled from the spec: internal code for in-pool conflicts. -/
def REJECT_CONFLICT : Nat := 258

/-- Modelled from the spec: the global maximum money supply bound used
by MoneyRange (value defined outside the sampled source). -/
def MAX_MONEY : Int := 2000000000000000

/-- MoneyRange: a value is valid when non-negative and at most the
global maximum. -/
def MoneyRange (v : Int) : Bool := decide (0 ≤ v ∧ v ≤ MAX_MONEY)

/-- Modelled from the spec: the minimum confirmation depth for spending
coinbase/coinstake outputs (value defined outside the sampled source;
only its role matters here). -/
def COINBASE_MATURITY : Int := 100

/-- The default minimum transaction fee allowance added to the
proof-of-stake reward entitlement, from src/wallet/wallet.h line 67. -/
def DEFAULT_TRANSACTION_MINFEE : Int := 1000

/-- Modelled from the spec: the mandatory consensus-only script
verification flag set (defined in the policy header outside the sampled
source). -/
def MANDATORY_SCRIPT_VERIFY_FLAGS : Nat := 1

/-- Modelled from the spec: the full standard policy script verification
flag set, a strict superset of the mandatory set by construction. -/
def STANDARD_SCRIPT_VERIFY_FLAGS : Nat := 511

/-- Flags that are standard but not mandatory (STANDARD minus
MANDATORY, as in the policy header). -/
def STANDARD_NOT_MANDATORY_VERIFY_FLAGS : Nat := 510

/-- The 32-bit complement mask of the standard-not-mandatory flags, used
to strip them from a flag set (flags bitand complement). -/
def NOT_STANDARD_NOT_MANDATORY_MASK : Nat :=
  0xffffffff ^^^ STANDARD_NOT_MANDATORY_VERIFY_FLAGS

/-- Modelled from the spec: structural block size ceiling (transaction
count and serialized bytes share the constant). -/
def MAX_BLOCK_SIZE : Nat := 1000000

/-- Modelled from the spec: block-level signature-operation budget. -/
def MAX_BLOCK_SIGOPS : Nat := MAX_BLOCK_SIZE / 50

/-- Modelled from the spec: standard per-transaction signature-operation
ceiling used by the admission pipeline. -/
def MAX_STANDARD_TX_SIGOPS : Nat := MAX_BLOCK_SIGOPS / 5

/-- The service-transaction side channel: lookup by hash and validation,
as abstract oracles (the service mempool and its checker live outside
the sampled source). -/
structure ServiceEnv where
  stxLookup : Nat → Option CServiceTransaction
  checkServiceTransaction : CServiceTransaction → CTransaction → Bool

/-- The ambient chain state and the external collaborators consumed by
the validation core, gathered as oracle fields: chain-tip data, policy
predicates, script-interpreter calls, hashing, serialization sizes, the
persistent coin view, and the service side channel.  Each field stands
for one global or one out-of-scope function of the repository. -/
structure Env where
  tipHeight : Int
  tipMedianTimePast : Int
  adjustedTime : Int
  spendHeight : Int
  requireStandard : Bool
  bytesPerSigOp : Nat
  checkTransaction : CTransaction → Bool
  isStandardReject : CTransaction → Option String
  areInputsStandard : CTransaction → Bool
  sigOpCount : Script → Nat
  sigOpCountFor : Script → Script → Nat
  isPayToScriptHash : Script → Bool
  verifyScript : CTransaction → Nat → Nat → Bool
  getCoinAge : CTransaction → Option Nat
  getCoinAgeSecond : CTransaction → Bool
  getProofOfStakeReward : Int → Int → Int
  baseView : OutPoint → Option Coin
  inCoinsCache : OutPoint → Bool
  pool : MemPool
  ancestorMTP : Int → Int
  mempoolMinFee : Nat → Int
  relayPriority : Bool
  minRelayFee : Nat → Int
  allowFree : Bool
  rateLimited : Bool
  ancestorsOk : Bool
  trimPool : MemPool → MemPool
  txSize : CTransaction → Nat
  feeDelta : Nat → Int
  services : ServiceEnv
  checkBlockSignature : Block → Bool
  checkProofOfWork : Block → Bool
  checkBlockHeader : Block → Bool → Bool
  blockMerkleRoot : Block → Nat × Bool
  blockSerializeSize : Block → Nat

/-- Mempool membership by transaction id (pool.exists). -/
def MemPool.existsTx (pool : MemPool) (h : Nat) : Bool :=
  pool.txs.any (fun t => t.txid = h)

/-- Mempool lookup by transaction id. -/
def MemPool.lookupTx (pool : MemPool) (h : Nat) : Option CTransaction :=
  pool.txs.find? (fun t => t.txid = h)

/-- Conflict check against in-pool spends (pool.mapNextTx): some pool
transaction already spends one of the candidate's inputs. -/
def MemPool.conflictsWith (pool : MemPool) (tx : CTransaction) : Bool :=
  tx.vin.any (fun txin =>
    pool.txs.any (fun p => p.vin.any (fun q => q.prevout = txin.prevout)))

/-- Insertion into the pool (pool.addUnchecked, reduced to the
transaction list). -/
def MemPool.addTx (pool : MemPool) (tx : CTransaction) : MemPool :=
  { txs := pool.txs ++ [tx] }

/-- Modelled from the spec: the overlay coin view backed by the
persistent UTXO store composed with in-pool outputs
(CCoinsViewMemPool): an output of a pool-resident transaction is
reported at the MEMPOOL_HEIGHT sentinel, anything else falls through to
the base view. -/
def mempoolView (env : Env) (o : OutPoint) : Option Coin :=
  match env.pool.lookupTx o.txHash with
  | some p =>
      match p.vout.get? o.n with
      | some txout =>
          some { out := txout, nHeight := MEMPOOL_HEIGHT,
                 fCoinBase := p.isCoinBase || p.isCoinStake }
      | none => none
  | none => env.baseView o

/-- Modelled from the spec: HaveInputs of the coin view — a coinbase
has no real inputs; otherwise every referenced coin must be present. -/
def haveInputs (view : OutPoint → Option Coin) (tx : CTransaction) : Bool :=
  tx.isCoinBase || tx.vin.all (fun txin => (view txin.prevout).isSome)

/-- CheckFinalTx, translated from src/main.cpp lines 206-236: evaluates
IsFinalTx at the next-block height, against the tip's median-time-past
when the median-time-past flag is set (the adjusted wall clock
otherwise). -/
def CheckFinalTx (env : Env) (tx : CTransaction) (flags : Nat) : Bool :=
  let nBlockHeight := env.tipHeight + 1
  let nBlockTime :=
    if flags &&& LOCKTIME_MEDIAN_TIME_PAST ≠ 0 then env.tipMedianTimePast
    else env.adjustedTime
  IsFinalTx tx nBlockHeight nBlockTime

/-- The previous-height vector built by CheckSequenceLocks from the
mempool-backed view (src/main.cpp lines 378-397): an in-pool input is
assumed to confirm in the next block; a missing input is an error. -/
def mempoolPrevHeights (env : Env) : List CTxIn → Option (List Int)
  | [] => some []
  | txin :: rest =>
      match mempoolView env txin.prevout with
      | none => none
      | some coin =>
          match mempoolPrevHeights env rest with
          | none => none
          | some hs =>
              some ((if coin.nHeight = MEMPOOL_HEIGHT then env.tipHeight + 1
                     else coin.nHeight) :: hs)

/-- CheckSequenceLocks, translated from src/main.cpp lines 351-429
(fresh-calculation branch; the lock-point cache write-back is a side
cache and does not affect the verdict): evaluates the calculated pair
against a synthetic index at tip height + 1 whose parent is the tip. -/
def CheckSequenceLocks (env : Env) (tx : CTransaction) (flags : Nat) : Bool :=
  let index : BlockIndexModel :=
    { nHeight := env.tipHeight + 1,
      prevMedianTimePast := env.tipMedianTimePast,
      ancestorMedianTimePast := env.ancestorMTP }
  match mempoolPrevHeights env tx.vin with
  | none => false
  | some prevheights =>
      EvaluateSequenceLocks index (CalculateSequenceLocks tx flags prevheights index)

/-- GetLegacySigOpCount, translated from src/main.cpp lines 432-444
(per-script counting deferred to the script oracle). -/
def GetLegacySigOpCount (env : Env) (tx : CTransaction) : Nat :=
  (tx.vin.map (fun txin => env.sigOpCount txin.scriptSig)).sum +
  (tx.vout.map (fun txout => env.sigOpCount txout.scriptPubKey)).sum

/-- GetP2SHSigOpCount, translated from src/main.cpp lines 446-461: zero
for a coinbase; otherwise counts sig-ops of pay-to-script-hash inputs
against the referenced coin's locking script (a missing coin reads as
the empty coin, which is not pay-to-script-hash). -/
def GetP2SHSigOpCount (env : Env) (tx : CTransaction)
    (view : OutPoint → Option Coin) : Nat :=
  if tx.isCoinBase then 0
  else
    (tx.vin.map (fun txin =>
      match view txin.prevout with
      | some coin =>
          if env.isPayToScriptHash coin.out.scriptPubKey then
            env.sigOpCountFor coin.out.scriptPubKey txin.scriptSig
          else 0
      | none => 0)).sum

/-- Sum of a transaction's output values (GetValueOut). -/
def GetValueOut (tx : CTransaction) : Int :=
  (tx.vout.map (fun txout => txout.nValue)).sum

/-- Sum of the referenced coins' values (view.GetValueIn). -/
def GetValueIn (view : OutPoint → Option Coin) (tx : CTransaction) : Int :=
  (tx.vin.map (fun txin =>
    match view txin.prevout with
    | some coin => coin.out.nValue
    | none => 0)).sum

/-- The per-input loop of Consensus::CheckTxInputs (src/main.cpp lines
970-991), threading the accumulated input value and the lazily computed
spend height (the source overwrites its nSpendHeight parameter with -1
and fills it from GetSpendHeight at the first coinbase/coinstake-
relevant input).  A missing coin would fail the source's assertion; it
is unreachable behind the HaveInputs gate. -/
def checkTxInputsLoop (env : Env) (tx : CTransaction)
    (view : OutPoint → Option Coin) :
    List CTxIn → Int → Int → Except VState (Int × Int)
  | [], nValueIn, nSpendHeight => .ok (nValueIn, nSpendHeight)
  | txin :: rest, nValueIn, nSpendHeight =>
      match view txin.prevout with
      | none => .error (.errored "assert-coin-unavailable")
      | some coin =>
          if (coin.fCoinBase || tx.isCoinStake) = true then
            let sh := if nSpendHeight = -1 then env.spendHeight else nSpendHeight
            if sh - coin.nHeight < COINBASE_MATURITY ∧ 1600000 < env.tipHeight then
              .error (.invalid 0 REJECT_INVALID "bad-txns-premature-spend-of-coinbase")
            else
              let nValueIn1 := nValueIn + coin.out.nValue
              if MoneyRange coin.out.nValue = false ∨ MoneyRange nValueIn1 = false then
                .error (.invalid 100 REJECT_INVALID "bad-txns-inputvalues-outofrange")
              else
                checkTxInputsLoop env tx view rest nValueIn1 sh
          else
            let nValueIn1 := nValueIn + coin.out.nValue
            if MoneyRange coin.out.nValue = false ∨ MoneyRange nValueIn1 = false then
              .error (.invalid 100 REJECT_INVALID "bad-txns-inputvalues-outofrange")
            else
              checkTxInputsLoop env tx view rest nValueIn1 nSpendHeight

/-- Consensus::CheckTxInputs, translated from src/main.cpp lines
960-1030: input availability, the coinbase/coinstake maturity rule
gated behind the tip-height hysteresis, value range accumulation, and
the fee / proof-of-stake-reward postconditions.  The coin-age and
stake-reward computations are external oracles; the source's second
GetCoinAge call passes a boolean where a coin age is expected, mirrored
here as a 1/0 value. -/
def CheckTxInputs (env : Env) (tx : CTransaction)
    (view : OutPoint → Option Coin) (_nSpendHeightArg : Int) : VState :=
  if haveInputs view tx = false then .invalid 0 0 ""
  else
    match checkTxInputsLoop env tx view tx.vin 0 (-1) with
    | .error s => s
    | .ok (nValueIn, nSpendHeight) =>
        if tx.isCoinStake = false then
          if nValueIn < GetValueOut tx then
            .invalid 100 REJECT_INVALID "bad-txns-in-belowout"
          else
            let nTxFee := nValueIn - GetValueOut tx
            if nTxFee < 0 then .invalid 100 REJECT_INVALID "bad-txns-fee-negative"
            else if MoneyRange nTxFee = false then
              .invalid 100 REJECT_INVALID "bad-txns-fee-outofrange"
            else .valid
        else
          match env.getCoinAge tx with
          | none => .invalid 100 REJECT_INVALID "bad-txns-cant-get-coin-age"
          | some _ =>
              let nStakeReward := GetValueOut tx - nValueIn
              if nStakeReward >
                  env.getProofOfStakeReward
                    (if env.getCoinAgeSecond tx then 1 else 0) nSpendHeight +
                  DEFAULT_TRANSACTION_MINFEE then
                .invalid 100 REJECT_INVALID "bad-txns-stake-reward-too-high"
              else .valid

/-- The per-input script verification loop of CheckInputs (src/main.cpp
lines 1058-1108, the synchronous pvChecks-null path): on a failing
check under flags that include non-mandatory bits, a second check with
those bits stripped distinguishes a policy-only failure (non-DoS
rejection) from a mandatory failure (DoS 100). -/
def checkInputsScriptLoop (env : Env) (tx : CTransaction)
    (view : OutPoint → Option Coin) (flags : Nat) :
    Nat → List CTxIn → VState
  | _, [] => .valid
  | i, txin :: rest =>
      match view txin.prevout with
      | none => .errored "assert-coin-unavailable"
      | some _ =>
          if env.verifyScript tx i flags = true then
            checkInputsScriptLoop env tx view flags (i + 1) rest
          else if flags &&& STANDARD_NOT_MANDATORY_VERIFY_FLAGS ≠ 0 ∧
              env.verifyScript tx i (flags &&& NOT_STANDARD_NOT_MANDATORY_MASK) = true then
            .invalid 0 REJECT_NONSTANDARD "non-mandatory-script-verify-flag"
          else
            .invalid 100 REJECT_INVALID "mandatory-script-verify-flag-failed"

/-- CheckInputs, translated from src/main.cpp lines 1033-1113: a
coinbase passes; otherwise Consensus::CheckTxInputs runs first (with
GetSpendHeight of the view), then, when script checks are enabled, the
per-input script verification loop. -/
def CheckInputs (env : Env) (tx : CTransaction)
    (view : OutPoint → Option Coin) (fScriptChecks : Bool) (flags : Nat) : VState :=
  if tx.isCoinBase = true then .valid
  else
    match CheckTxInputs env tx view env.spendHeight with
    | .valid =>
        if fScriptChecks = true then checkInputsScriptLoop env tx view flags 0 tx.vin
        else .valid
    | s => s

/-- The pre-input gates of AcceptToMemoryPoolWorker (src/main.cpp lines
501-546), in source order: structural check, coinbase/coinstake
rejection, standardness (when required), absolute finality for the next
block, already-in-pool, and in-pool conflict.  `some s` is an early
rejection with state `s`; the structural checker's own reason strings
are abstracted behind its oracle. -/
def workerStage1 (env : Env) (tx : CTransaction) : Option VState :=
  if env.checkTransaction tx = false then
    some (.invalid 100 REJECT_INVALID "bad-tx")
  else if (tx.isCoinBase || tx.isCoinStake) = true then
    some (.invalid 100 REJECT_INVALID "coinbase")
  else if env.requireStandard = true ∧ (env.isStandardReject tx).isSome then
    some (.invalid 0 REJECT_NONSTANDARD ((env.isStandardReject tx).getD ""))
  else if CheckFinalTx env tx STANDARD_LOCKTIME_VERIFY_FLAGS = false then
    some (.invalid 0 REJECT_NONSTANDARD "non-final")
  else if env.pool.existsTx tx.txid = true then
    some (.invalid 0 REJECT_ALREADY_KNOWN "txn-already-in-mempool")
  else if env.pool.conflictsWith tx = true then
    some (.invalid 0 REJECT_CONFLICT "txn-mempool-conflict")
  else none

/-- Result of the admission worker: verdict, missing-inputs flag, the
validation state, the resulting pool, the coins collected for potential
uncaching, and whether the mandatory-after-standard divergence was
logged as a bug. -/
structure AdmResult where
  res : Bool
  missing : Bool
  state : VState
  pool : MemPool
  coinsToUncache : List OutPoint
  bugLogged : Bool
deriving DecidableEq, Repr

/-- AcceptToMemoryPoolWorker, translated from src/main.cpp lines
489-827.  The congestion-controller fee arithmetic (double-precision
decay of the relay floor and free quota) is folded into the
`mempoolMinFee` / `minRelayFee` / `rateLimited` oracles, which model
the post-update values the comparisons read; everything else follows
the source's gate order.  A missing input returns early with the
missing flag set and the state untouched (not marked invalid). -/
def AcceptToMemoryPoolWorker (env : Env) (tx : CTransaction)
    (fLimitFree fOverrideMempoolLimit fRejectAbsurdFee : Bool) : AdmResult :=
  match workerStage1 env tx with
  | some s =>
      { res := false, missing := false, state := s, pool := env.pool,
        coinsToUncache := [], bugLogged := false }
  | none =>
      let view := mempoolView env
      let vCoins := (tx.vin.filter
        (fun txin => env.inCoinsCache txin.prevout = false)).map (fun txin => txin.prevout)
      let mk : VState → AdmResult := fun s =>
        { res := false, missing := false, state := s, pool := env.pool,
          coinsToUncache := vCoins, bugLogged := false }
      if tx.vin.all (fun txin => (view txin.prevout).isSome) = false then
        { res := false, missing := true, state := .valid, pool := env.pool,
          coinsToUncache := vCoins, bugLogged := false }
      else
        let nValueIn := GetValueIn view tx
        if CheckSequenceLocks env tx STANDARD_LOCKTIME_VERIFY_FLAGS = false then
          mk (.invalid 0 REJECT_NONSTANDARD "non-BIP68-final")
        else if env.requireStandard = true ∧ env.areInputsStandard tx = false then
          mk (.invalid 0 REJECT_NONSTANDARD "bad-txns-nonstandard-inputs")
        else
          let nSigOps := GetLegacySigOpCount env tx + GetP2SHSigOpCount env tx view
          let nValueOut := GetValueOut tx
          let nFees := nValueIn - nValueOut
          let nModifiedFees := nFees + env.feeDelta tx.txid
          let nSize := env.txSize tx
          if MAX_STANDARD_TX_SIGOPS < nSigOps ∨
              (env.bytesPerSigOp ≠ 0 ∧ nSize / env.bytesPerSigOp < nSigOps) then
            mk (.invalid 0 REJECT_NONSTANDARD "bad-txns-too-many-sigops")
          else if 0 < env.mempoolMinFee nSize ∧ nModifiedFees < env.mempoolMinFee nSize then
            mk (.invalid 0 REJECT_INSUFFICIENTFEE "mempool min fee not met")
          else if env.relayPriority = true ∧ nModifiedFees < env.minRelayFee nSize ∧
              env.allowFree = false then
            mk (.invalid 0 REJECT_INSUFFICIENTFEE "insufficient priority")
          else if fLimitFree = true ∧ nModifiedFees < env.minRelayFee nSize ∧
              env.rateLimited = true then
            mk (.invalid 0 REJECT_INSUFFICIENTFEE "rate limited free transaction")
          else if fRejectAbsurdFee = true ∧ tx.nVersion = 1 ∧
              env.minRelayFee nSize * 10000 < nFees then
            mk (.invalid 0 REJECT_HIGHFEE "absurdly-high-fee")
          else if fRejectAbsurdFee = true ∧ tx.nVersion = 2 ∧ 100000000 < nFees then
            mk (.invalid 0 REJECT_HIGHFEE "absurdly-high-fee")
          else
            match CheckInputs env tx view true STANDARD_SCRIPT_VERIFY_FLAGS with
            | .valid =>
                match CheckInputs env tx view true MANDATORY_SCRIPT_VERIFY_FLAGS with
                | .valid =>
                    if env.ancestorsOk = false then
                      mk (.invalid 0 REJECT_NONSTANDARD "too-long-mempool-chain")
                    else
                      let pool1 := env.pool.addTx tx
                      if fOverrideMempoolLimit = false then
                        let pool2 := env.trimPool pool1
                        if pool2.existsTx tx.txid = false then
                          { res := false, missing := false,
                            state := .invalid 0 REJECT_INSUFFICIENTFEE "mempool full",
                            pool := pool2, coinsToUncache := vCoins, bugLogged := false }
                        else
                          { res := true, missing := false, state := .valid,
                            pool := pool2, coinsToUncache := vCoins, bugLogged := false }
                      else
                        { res := true, missing := false, state := .valid,
                          pool := pool1, coinsToUncache := vCoins, bugLogged := false }
                | s =>
                    { res := false, missing := false, state := s, pool := env.pool,
                      coinsToUncache := vCoins, bugLogged := true }
            | s =>
                { res := false, missing := false, state := s, pool := env.pool,
                  coinsToUncache := vCoins, bugLogged := false }

/-- Result of the outer AcceptToMemoryPool wrapper: the worker's
verdict plus the coins it actually uncached. -/
structure AtmpResult where
  res : Bool
  missing : Bool
  state : VState
  pool : MemPool
  uncached : List OutPoint
  bugLogged : Bool
deriving DecidableEq, Repr

/-- AcceptToMemoryPool, translated from src/main.cpp lines 829-848: runs
the worker and uncaches the collected coins only when the transaction
was rejected for a reason other than missing inputs (an orphan keeps
its coins cached). -/
def AcceptToMemoryPool (env : Env) (tx : CTransaction)
    (fLimitFree fOverrideMempoolLimit fRejectAbsurdFee : Bool) : AtmpResult :=
  let r := AcceptToMemoryPoolWorker env tx fLimitFree fOverrideMempoolLimit fRejectAbsurdFee
  { res := r.res, missing := r.missing, state := r.state, pool := r.pool,
    uncached := if r.res = false ∧ r.missing = false then r.coinsToUncache else [],
    bugLogged := r.bugLogged }

/-- Whether a transaction output is empty (nValue zero and empty
script); modelled from the spec's proof-of-stake coinbase-shape rule. -/
def txOutIsEmpty (o : CTxOut) : Bool :=
  o.nValue = 0 && o.scriptPubKey.isEmpty

/-- The proof-of-stake coinbase-shape condition of CheckBlock
(src/main.cpp line 1620): the coinbase must have exactly one, empty,
output. -/
def posCoinbaseShapeBad (block : Block) : Bool :=
  match block.vtx with
  | [] => false
  | tx0 :: _ =>
      match tx0.vout with
      | [out0] => !txOutIsEmpty out0
      | _ => true

/-- Whether the first transaction of the list is a coinbase. -/
def firstIsCoinBase : List CTransaction → Bool
  | [] => false
  | tx0 :: _ => tx0.isCoinBase

/-- The per-transaction loop of CheckBlock (src/main.cpp lines
1626-1667): structural check per transaction; for version-2
transactions the service-transaction cross-check, where a locally
absent service transaction is requested from peers (collected in the
returned hash list) and a failing service validation is only logged —
neither fails the block; finally the proof-of-stake timestamp rule
(a transaction stamped later than its block is a DoS-50 rejection). -/
def checkBlockTxLoop (env : Env) (block : Block) :
    List CTransaction → Option VState × List Nat
  | [] => (none, [])
  | tx :: rest =>
      if env.checkTransaction tx = false then
        (some (.invalid 100 REJECT_INVALID "bad-tx"), [])
      else
        let reqs :=
          if tx.nVersion = 2 then
            match env.services.stxLookup tx.serviceReferenceHash with
            | none => [tx.serviceReferenceHash]
            | some stx =>
                if env.services.checkServiceTransaction stx tx = false then []
                else []
          else []
        if block.nTime < (tx.nTime : Int) then
          (some (.invalid 50 0 ""), reqs)
        else
          let rec' := checkBlockTxLoop env block rest
          (rec'.1, reqs ++ rec'.2)

/-- Block-level legacy sig-op total (src/main.cpp lines 1669-1673). -/
def blockSigOps (env : Env) (block : Block) : Nat :=
  (block.vtx.map (fun tx => GetLegacySigOpCount env tx)).sum

/-- CheckBlock, translated from src/main.cpp lines 1542-1691: the
cached-result short-circuit, proof-of-work check, header check, merkle
root and malleability checks, size ceilings, the
coinbase/coinstake-position shape rules, the proof-of-stake coinbase
shape, the per-transaction loop (with its service-transaction side
channel), block sig-op budget and block signature.  Returns the verdict
together with the service-transaction fetch requests issued; the final
fChecked caching assignment does not alter the verdict and is not
modelled. -/
def CheckBlock (env : Env) (block : Block)
    (fCheckPOW fCheckMerkleRoot : Bool) : VState × List Nat :=
  if block.fChecked = true then (.valid, [])
  else if block.isProofOfStake = false ∧ fCheckPOW = true ∧
      env.checkProofOfWork block = false then
    (.invalid 50 REJECT_INVALID "high-hash", [])
  else if env.checkBlockHeader block fCheckPOW = false then
    (.invalid 0 0 "bad-header", [])
  else if fCheckMerkleRoot = true ∧ block.hashMerkleRoot ≠ (env.blockMerkleRoot block).1 then
    (.invalid 100 REJECT_INVALID "bad-txnmrklroot", [])
  else if fCheckMerkleRoot = true ∧ (env.blockMerkleRoot block).2 = true then
    (.invalid 100 REJECT_INVALID "bad-txns-duplicate", [])
  else if block.vtx = [] ∨ MAX_BLOCK_SIZE < block.vtx.length ∨
      MAX_BLOCK_SIZE < env.blockSerializeSize block then
    (.invalid 100 REJECT_INVALID "bad-blk-length", [])
  else if block.vtx = [] ∨ firstIsCoinBase block.vtx = false then
    (.invalid 100 REJECT_INVALID "bad-cb-missing", [])
  else if (block.vtx.drop 1).any (fun t => t.isCoinBase) = true then
    (.invalid 100 REJECT_INVALID "bad-cb-multiple", [])
  else if (block.vtx.drop 2).any (fun t => t.isCoinStake) = true then
    (.invalid 100 0 "", [])
  else if block.isProofOfStake = true ∧ posCoinbaseShapeBad block = true then
    (.invalid 0 0 "", [])
  else
    match checkBlockTxLoop env block block.vtx with
    | (some s, reqs) => (s, reqs)
    | (none, reqs) =>
        if MAX_BLOCK_SIGOPS < blockSigOps env block then
          (.invalid 100 REJECT_INVALID "bad-blk-sigops", reqs)
        else if env.checkBlockSignature block = false then
          (.invalid 100 REJECT_INVALID "bad-block-sig", reqs)
        else (.valid, reqs)

/-- The flush modes of FlushStateToDisk (the enum lives in a header
outside the sampled source; the four modes are used in src/main.cpp
lines 1211-1222). -/
inductive FlushStateMode where
  | stateNone
  | ifNeeded
  | periodic
  | always
deriving DecidableEq, Repr

/-- Modelled from the spec: the periodic block-index write interval in
seconds (constant defined outside the sampled source). -/
def DATABASE_WRITE_INTERVAL : Int := 3600

/-- Modelled from the spec: the periodic UTXO-cache flush interval in
seconds (constant defined outside the sampled source). -/
def DATABASE_FLUSH_INTERVAL : Int := 86400

/-- Outcome of a flush: success, a recoverable state error, or a node
abort (AbortNode logs, requests shutdown and surfaces a state error;
modelled as a distinct terminal outcome). -/
inductive FlushOutcome where
  | ok
  | errored (msg : String)
  | aborted (msg : String)
deriving DecidableEq, Repr

/-- The environment FlushStateToDisk reads: the clock, the cache
accounting, and the success of the three externally-performed I/O
operations. -/
structure FlushEnv where
  nNow : Int
  cacheSize : Nat
  coinCacheUsage : Nat
  cacheEntries : Nat
  checkDiskSpace : Nat → Bool
  writeBatchOk : Bool
  coinsFlushOk : Bool

/-- The mutable state FlushStateToDisk owns: the three last-action
timestamps and the dirty file / block-index sets (as abstract id
lists). -/
structure FlushState where
  nLastWrite : Int
  nLastFlush : Int
  nLastSetChain : Int
  dirtyFileInfo : List Nat
  dirtyBlockIndex : List Nat
deriving DecidableEq, Repr

/-- What a FlushStateToDisk call did: the outcome, the updated state,
the block-index/file batch that was handed to WriteBatchSync (if any),
whether the UTXO cache was flushed to the persistent store, and whether
the best-chain notification fired. -/
structure FlushResult where
  outcome : FlushOutcome
  st : FlushState
  batchWritten : Option (List Nat × List Nat)
  coinsFlushed : Bool
  bestChainNotified : Bool
deriving DecidableEq, Repr

/-- The four-way full-flush trigger of FlushStateToDisk (src/main.cpp
lines 1211-1222): explicit request, cache large in periodic mode (the
source's cacheSize * (10.0/9) > limit modelled exactly as
10 * cacheSize > 9 * limit), cache critical in if-needed mode, or the
periodic flush interval elapsed; timestamps are the values after their
startup initialisation. -/
def FullFlushTrigger (env : FlushEnv) (st0 : FlushState)
    (mode : FlushStateMode) : Prop :=
  mode = FlushStateMode.always ∨
  (mode = FlushStateMode.periodic ∧ 9 * env.coinCacheUsage < 10 * env.cacheSize) ∨
  (mode = FlushStateMode.ifNeeded ∧ env.coinCacheUsage < env.cacheSize) ∨
  (mode = FlushStateMode.periodic ∧
    (if st0.nLastFlush = 0 then env.nNow else st0.nLastFlush) +
      DATABASE_FLUSH_INTERVAL * 1000000 < env.nNow)

/-- The periodic block-index write trigger of FlushStateToDisk
(src/main.cpp lines 1216-1217). -/
def PeriodicWriteTrigger (env : FlushEnv) (st0 : FlushState)
    (mode : FlushStateMode) : Prop :=
  mode = FlushStateMode.periodic ∧
  (if st0.nLastWrite = 0 then env.nNow else st0.nLastWrite) +
    DATABASE_WRITE_INTERVAL * 1000000 < env.nNow

/-- The best-chain notification trigger of the third block of
FlushStateToDisk (src/main.cpp lines 1269-1270), apart from the
full-flush disjunct. -/
def SetChainTrigger (env : FlushEnv) (st0 : FlushState)
    (mode : FlushStateMode) : Prop :=
  (mode = FlushStateMode.always ∨ mode = FlushStateMode.periodic) ∧
  (if st0.nLastSetChain = 0 then env.nNow else st0.nLastSetChain) +
    DATABASE_WRITE_INTERVAL * 1000000 < env.nNow

instance fullFlushTriggerDecidable (env : FlushEnv) (st0 : FlushState)
    (mode : FlushStateMode) : Decidable (FullFlushTrigger env st0 mode) := by
  unfold FullFlushTrigger
  infer_instance

instance periodicWriteTriggerDecidable (env : FlushEnv) (st0 : FlushState)
    (mode : FlushStateMode) : Decidable (PeriodicWriteTrigger env st0 mode) := by
  unfold PeriodicWriteTrigger
  infer_instance

instance setChainTriggerDecidable (env : FlushEnv) (st0 : FlushState)
    (mode : FlushStateMode) : Decidable (SetChainTrigger env st0 mode) := by
  unfold SetChainTrigger
  infer_instance

/-- FlushStateToDisk, translated from src/main.cpp lines 1187-1282:
startup initialisation of the last-action timestamps, the trigger
conditions (named above, exactly as computed by the source's fCacheLarge
/ fCacheCritical / fPeriodicWrite / fPeriodicFlush / fDoFullFlush
booleans), the combined write branch (disk-space check, block-file
fsync, draining the dirty sets into one WriteBatchSync batch, aborting
on its failure), the full-flush branch (second disk-space check,
UTXO-cache flush, aborting on its failure), and the best-chain
notification. -/
def FlushStateToDisk (env : FlushEnv) (st0 : FlushState)
    (mode : FlushStateMode) : FlushResult :=
  let nNow := env.nNow
  let st :=
    { st0 with
      nLastWrite := if st0.nLastWrite = 0 then nNow else st0.nLastWrite,
      nLastFlush := if st0.nLastFlush = 0 then nNow else st0.nLastFlush,
      nLastSetChain := if st0.nLastSetChain = 0 then nNow else st0.nLastSetChain }
  if FullFlushTrigger env st0 mode ∨ PeriodicWriteTrigger env st0 mode then
    if env.checkDiskSpace 0 = false then
      { outcome := .errored "out of disk space", st := st,
        batchWritten := none, coinsFlushed := false, bestChainNotified := false }
    else
      let files := st.dirtyFileInfo
      let blocks := st.dirtyBlockIndex
      let st1 := { st with dirtyFileInfo := [], dirtyBlockIndex := [] }
      if env.writeBatchOk = false then
        { outcome := .aborted "Files to write to block index database", st := st1,
          batchWritten := some (files, blocks), coinsFlushed := false,
          bestChainNotified := false }
      else
        let st2 := { st1 with nLastWrite := nNow }
        if FullFlushTrigger env st0 mode then
          if env.checkDiskSpace (128 * 2 * 2 * env.cacheEntries) = false then
            { outcome := .errored "out of disk space", st := st2,
              batchWritten := some (files, blocks), coinsFlushed := false,
              bestChainNotified := false }
          else if env.coinsFlushOk = false then
            { outcome := .aborted "Failed to write to coin database", st := st2,
              batchWritten := some (files, blocks), coinsFlushed := false,
              bestChainNotified := false }
          else
            let st3 := { st2 with nLastFlush := nNow, nLastSetChain := nNow }
            { outcome := .ok, st := st3, batchWritten := some (files, blocks),
              coinsFlushed := true, bestChainNotified := true }
        else
          if SetChainTrigger env st0 mode then
            { outcome := .ok, st := { st2 with nLastSetChain := nNow },
              batchWritten := some (files, blocks), coinsFlushed := false,
              bestChainNotified := true }
          else
            { outcome := .ok, st := st2, batchWritten := some (files, blocks),
              coinsFlushed := false, bestChainNotified := false }
  else
    if SetChainTrigger env st0 mode then
      { outcome := .ok, st := { st with nLastSetChain := nNow },
        batchWritten := none, coinsFlushed := false, bestChainNotified := true }
    else
      { outcome := .ok, st := st, batchWritten := none, coinsFlushed := false,
        bestChainNotified := false }

theorem flush_coinsFlushed_of_trigger (env : FlushEnv) (st0 : FlushState)
    (mode : FlushStateMode) (hT : FullFlushTrigger env st0 mode)
    (h1 : ∀ n, env.checkDiskSpace n = true)
    (h2 : env.writeBatchOk = true) (h3 : env.coinsFlushOk = true) :
    (FlushStateToDisk env st0 mode).coinsFlushed = true := by
  unfold FlushStateToDisk
  rw [if_pos (Or.inl hT), if_neg (by simp [h1]), if_neg (by simp [h2]),
    if_pos hT, if_neg (by simp [h1]), if_neg (by simp [h3])]

theorem flush_coinsFlushed_of_no_trigger (env : FlushEnv) (st0 : FlushState)
    (mode : FlushStateMode) (hT : ¬ FullFlushTrigger env st0 mode) :
    (FlushStateToDisk env st0 mode).coinsFlushed = false := by
  unfold FlushStateToDisk
  by_cases hW : FullFlushTrigger env st0 mode ∨ PeriodicWriteTrigger env st0 mode
  · rw [if_pos hW]
    by_cases hd : env.checkDiskSpace 0 = false
    · rw [if_pos hd]
    · rw [if_neg hd]
      by_cases hb : env.writeBatchOk = false
      · rw [if_pos hb]
      · rw [if_neg hb, if_neg hT]
        by_cases hs : SetChainTrigger env st0 mode
        · rw [if_pos hs]
        · rw [if_neg hs]
  · rw [if_neg hW]
    by_cases hs : SetChainTrigger env st0 mode
    · rw [if_pos hs]
    · rw [if_neg hs]

/-- C9: the UTXO cache is flushed to the persistent store exactly when
the mode is ALWAYS, or periodic with the projected cache size near the
ceiling, or if-needed with the cache over the ceiling, or periodic with
the flush interval elapsed (given the I/O oracles succeed); an elapsed
periodic-write interval alone persists the dirty block-index entries
and file metadata as one batch without flushing the UTXO cache; a
failed block-index batch write, or a failed coin-database flush, aborts
the node. -/
theorem c9_flushStateToDisk_policy (env : FlushEnv) (st0 : FlushState)
    (mode : FlushStateMode) :
    ((∀ n, env.checkDiskSpace n = true) → env.writeBatchOk = true →
      env.coinsFlushOk = true →
      ((FlushStateToDisk env st0 mode).coinsFlushed = true ↔
        FullFlushTrigger env st0 mode)) ∧
    ((∀ n, env.checkDiskSpace n = true) → env.writeBatchOk = true →
      ¬ FullFlushTrigger env st0 mode → PeriodicWriteTrigger env st0 mode →
      (FlushStateToDisk env st0 mode).batchWritten =
          some (st0.dirtyFileInfo, st0.dirtyBlockIndex) ∧
        (FlushStateToDisk env st0 mode).coinsFlushed = false) ∧
    ((FullFlushTrigger env st0 mode ∨ PeriodicWriteTrigger env st0 mode) →
      env.checkDiskSpace 0 = true → env.writeBatchOk = false →
      (FlushStateToDisk env st0 mode).outcome =
        .aborted "Files to write to block index database") ∧
    (FullFlushTrigger env st0 mode → (∀ n, env.checkDiskSpace n = true) →
      env.writeBatchOk = true → env.coinsFlushOk = false →
      (FlushStateToDisk env st0 mode).outcome =
        .aborted "Failed to write to coin database") := by
  refine ⟨?_, ?_, ?_, ?_⟩
  · intro h1 h2 h3
    constructor
    · intro hF
      by_contra hT
      rw [flush_coinsFlushed_of_no_trigger env st0 mode hT] at hF
      exact Bool.false_ne_true hF
    · intro hT
      exact flush_coinsFlushed_of_trigger env st0 mode hT h1 h2 h3
  · intro h1 h2 hT hW
    unfold FlushStateToDisk
    rw [if_pos (Or.inr hW), if_neg (by simp [h1]), if_neg (by simp [h2]),
      if_neg hT]
    by_cases hs : SetChainTrigger env st0 mode
    · rw [if_pos hs]
      exact ⟨rfl, rfl⟩
    · rw [if_neg hs]
      exact ⟨rfl, rfl⟩
  · intro hW hd hb
    unfold FlushStateToDisk
    rw [if_pos hW, if_neg (by simp [hd]), if_pos hb]
  · intro hT h1 h2 h3
    unfold FlushStateToDisk
    rw [if_pos (Or.inl hT), if_neg (by simp [h1]), if_neg (by simp [h2]),
      if_pos hT, if_neg (by simp [h1]), if_pos h3]

/-- C9 witness: in ALWAYS mode with all I/O succeeding, a concrete call
flushes the UTXO cache. -/
theorem c9_flushStateToDisk_policy_witness :
    (FlushStateToDisk
      { nNow := 2, cacheSize := 5, coinCacheUsage := 100, cacheEntries := 0,
        checkDiskSpace := fun _ => true, writeBatchOk := true, coinsFlushOk := true }
      { nLastWrite := 1, nLastFlush := 1, nLastSetChain := 1,
        dirtyFileInfo := [3], dirtyBlockIndex := [7] }
      FlushStateMode.always).coinsFlushed = true := by
  exact ((c9_flushStateToDisk_policy
    { nNow := 2, cacheSize := 5, coinCacheUsage := 100, cacheEntries := 0,
      checkDiskSpace := fun _ => true, writeBatchOk := true, coinsFlushOk := true }
    { nLastWrite := 1, nLastFlush := 1, nLastSetChain := 1,
      dirtyFileInfo := [3], dirtyBlockIndex := [7] }
    FlushStateMode.always).1 (fun _ => rfl) rfl rfl).mpr (Or.inl rfl)

theorem checkTxInputsLoop_error_ne_valid (env : Env) (tx : CTransaction)
    (view : OutPoint → Option Coin) :
    ∀ (vins : List CTxIn) (nV sh : Int) (s : VState),
      checkTxInputsLoop env tx view vins nV sh = .error s → s ≠ VState.valid := by
  intro vins
  induction vins with
  | nil =>
      intro nV sh s h
      simp [checkTxInputsLoop] at h
  | cons txin rest ih =>
      intro nV sh s h
      rw [checkTxInputsLoop] at h
      cases hv : view txin.prevout with
      | none =>
          rw [hv] at h
          dsimp at h
          injection h with h
          subst h
          simp
      | some coin =>
          rw [hv] at h
          dsimp at h
          split_ifs at h <;>
            first
              | (injection h with h; subst h; simp)
              | exact ih _ _ _ h

theorem checkTxInputsLoop_no_ok_of_immature (env : Env) (tx : CTransaction)
    (view : OutPoint → Option Coin) (htip : 1600000 < env.tipHeight) :
    ∀ (vins : List CTxIn) (nV sh : Int),
      (sh = -1 ∨ sh = env.spendHeight) →
      (∃ txin ∈ vins, ∃ coin, view txin.prevout = some coin ∧
        coin.fCoinBase = true ∧ env.spendHeight - coin.nHeight < COINBASE_MATURITY) →
      ∀ r, checkTxInputsLoop env tx view vins nV sh ≠ .ok r := by
  intro vins
  induction vins with
  | nil =>
      rintro nV sh hinv ⟨txin, hmem, _⟩ r
      simp at hmem
  | cons txin0 rest ih =>
      rintro nV sh hinv ⟨t, hmem, coin, hv, hcb, him⟩ r h
      rw [checkTxInputsLoop] at h
      rcases List.mem_cons.mp hmem with heq | hmem'
      · subst heq
        rw [hv] at h
        dsimp at h
        have hb : (coin.fCoinBase || tx.isCoinStake) = true := by simp [hcb]
        rw [if_pos hb] at h
        have hsh : (if sh = -1 then env.spendHeight else sh) = env.spendHeight := by
          rcases hinv with h1 | h1 <;> simp [h1]
        rw [hsh] at h
        rw [if_pos ⟨him, htip⟩] at h
        exact Except.noConfusion h
      · cases hv0 : view txin0.prevout with
        | none =>
            rw [hv0] at h
            dsimp at h
            exact Except.noConfusion h
        | some c0 =>
            rw [hv0] at h
            dsimp at h
            split_ifs at h <;>
              first
                | exact Except.noConfusion h
                | exact ih _ _ (Or.inr rfl) ⟨t, hmem', coin, hv, hcb, him⟩ r h
                | exact ih _ _ hinv ⟨t, hmem', coin, hv, hcb, him⟩ r h

theorem checkTxInputsLoop_no_premature_of_low_tip (env : Env) (tx : CTransaction)
    (view : OutPoint → Option Coin) (htip : env.tipHeight ≤ 1600000) :
    ∀ (vins : List CTxIn) (nV sh : Int) (s : VState),
      checkTxInputsLoop env tx view vins nV sh = .error s →
      s.reasonOf ≠ some "bad-txns-premature-spend-of-coinbase" := by
  intro vins
  induction vins with
  | nil =>
      intro nV sh s h
      simp [checkTxInputsLoop] at h
  | cons txin rest ih =>
      intro nV sh s h
      rw [checkTxInputsLoop] at h
      cases hv : view txin.prevout with
      | none =>
          rw [hv] at h
          dsimp at h
          injection h with h
          subst h
          decide
      | some coin =>
          rw [hv] at h
          dsimp at h
          split_ifs at h <;>
            first
              | exact ih _ _ _ h
              | (exfalso; omega)
              | (injection h with h; subst h; decide)

/-- C4: during input checking at connection time, spending a coin whose
parent was a coinbase/coinstake before it reaches COINBASE_MATURITY
confirmations is rejected — with reason
bad-txns-premature-spend-of-coinbase when it is the first input — and
the rule is enforced only once the active tip has passed the hysteresis
height 1600000: at or below that height no rejection ever carries this
reason. -/
theorem c4_checkTxInputs_maturity :
    (∀ (env : Env) (tx : CTransaction) (view : OutPoint → Option Coin)
        (sh0 : Int) (txin : CTxIn) (coin : Coin),
        txin ∈ tx.vin → view txin.prevout = some coin → coin.fCoinBase = true →
        env.spendHeight - coin.nHeight < COINBASE_MATURITY →
        1600000 < env.tipHeight →
        CheckTxInputs env tx view sh0 ≠ VState.valid) ∧
    (∀ (env : Env) (tx : CTransaction) (view : OutPoint → Option Coin)
        (sh0 : Int) (txin : CTxIn) (rest : List CTxIn) (coin : Coin),
        tx.vin = txin :: rest → view txin.prevout = some coin →
        (coin.fCoinBase || tx.isCoinStake) = true →
        env.spendHeight - coin.nHeight < COINBASE_MATURITY →
        1600000 < env.tipHeight →
        haveInputs view tx = true →
        CheckTxInputs env tx view sh0 =
          VState.invalid 0 REJECT_INVALID "bad-txns-premature-spend-of-coinbase") ∧
    (∀ (env : Env) (tx : CTransaction) (view : OutPoint → Option Coin) (sh0 : Int),
        env.tipHeight ≤ 1600000 →
        (CheckTxInputs env tx view sh0).reasonOf ≠
          some "bad-txns-premature-spend-of-coinbase") := by
  refine ⟨?_, ?_, ?_⟩
  · intro env tx view sh0 txin coin hmem hv hcb him htip
    unfold CheckTxInputs
    by_cases hhi : haveInputs view tx = false
    · rw [if_pos hhi]
      simp
    · rw [if_neg hhi]
      cases hl : checkTxInputsLoop env tx view tx.vin 0 (-1) with
      | error s =>
          exact checkTxInputsLoop_error_ne_valid env tx view _ _ _ _ hl
      | ok r =>
          exact absurd hl (checkTxInputsLoop_no_ok_of_immature env tx view htip
            tx.vin 0 (-1) (Or.inl rfl) ⟨txin, hmem, coin, hv, hcb, him⟩ r)
  · intro env tx view sh0 txin rest coin hvin hv hb him htip hhave
    unfold CheckTxInputs
    rw [if_neg (by simp [hhave])]
    rw [hvin, checkTxInputsLoop, hv]
    dsimp
    rw [if_pos hb, if_pos ⟨him, htip⟩]
  · intro env tx view sh0 htip
    unfold CheckTxInputs
    by_cases hhi : haveInputs view tx = false
    · rw [if_pos hhi]
      decide
    · rw [if_neg hhi]
      cases hl : checkTxInputsLoop env tx view tx.vin 0 (-1) with
      | error s =>
          exact checkTxInputsLoop_no_premature_of_low_tip env tx view htip _ _ _ _ hl
      | ok r =>
          obtain ⟨nv, nsh⟩ := r
          dsimp
          by_cases hcs : tx.isCoinStake = false
          · rw [if_pos hcs]
            split_ifs <;> decide
          · rw [if_neg hcs]
            cases hga : env.getCoinAge tx with
            | none =>
                dsimp
                decide
            | some age =>
                dsimp
                split_ifs <;> decide

/-- A baseline concrete environment with trivial oracles, specialised by
record update in the concrete evaluations below. -/
def envBase : Env :=
  { tipHeight := 0, tipMedianTimePast := 0, adjustedTime := 0, spendHeight := 0,
    requireStandard := false, bytesPerSigOp := 0,
    checkTransaction := fun _ => true,
    isStandardReject := fun _ => none,
    areInputsStandard := fun _ => true,
    sigOpCount := fun _ => 0, sigOpCountFor := fun _ _ => 0,
    isPayToScriptHash := fun _ => false,
    verifyScript := fun _ _ _ => true,
    getCoinAge := fun _ => some 0, getCoinAgeSecond := fun _ => true,
    getProofOfStakeReward := fun _ _ => 0,
    baseView := fun _ => none, inCoinsCache := fun _ => false,
    pool := { txs := [] }, ancestorMTP := fun _ => 0,
    mempoolMinFee := fun _ => 0, relayPriority := false,
    minRelayFee := fun _ => 0, allowFree := true, rateLimited := false,
    ancestorsOk := true, trimPool := fun p => p,
    txSize := fun _ => 100, feeDelta := fun _ => 0,
    services := { stxLookup := fun _ => none,
                  checkServiceTransaction := fun _ _ => true },
    checkBlockSignature := fun _ => true, checkProofOfWork := fun _ => true,
    checkBlockHeader := fun _ _ => true,
    blockMerkleRoot := fun b => (b.hashMerkleRoot, false),
    blockSerializeSize := fun _ => 0 }

/-- A baseline concrete transaction, specialised by record update. -/
def txBase : CTransaction :=
  { nVersion := 1, nTime := 0, nLockTime := 0, vin := [], vout := [],
    serviceReferenceHash := 0, txid := 0, isCoinBase := false,
    isCoinStake := false }

/-- C4 witness: a concrete first input spending a height-0
coinbase-parented coin at spend height 5, with the tip past the
hysteresis height, is rejected with the premature-spend reason. -/
theorem c4_checkTxInputs_maturity_witness :
    CheckTxInputs { envBase with spendHeight := 5, tipHeight := 1600001 }
      { txBase with vin := [{ prevout := { txHash := 1, n := 0 },
                              scriptSig := [], nSequence := 0 }] }
      (fun o => if o.txHash = 1 then
        some { out := { nValue := 10, scriptPubKey := [] }, nHeight := 0,
               fCoinBase := true }
        else none) 0 =
      VState.invalid 0 REJECT_INVALID "bad-txns-premature-spend-of-coinbase" := by
  exact c4_checkTxInputs_maturity.2.1
    { envBase with spendHeight := 5, tipHeight := 1600001 }
    { txBase with vin := [{ prevout := { txHash := 1, n := 0 },
                            scriptSig := [], nSequence := 0 }] }
    (fun o => if o.txHash = 1 then
      some { out := { nValue := 10, scriptPubKey := [] }, nHeight := 0,
             fCoinBase := true }
      else none) 0
    { prevout := { txHash := 1, n := 0 }, scriptSig := [], nSequence := 0 }
    []
    { out := { nValue := 10, scriptPubKey := [] }, nHeight := 0, fCoinBase := true }
    rfl (by decide) rfl (by decide) (by decide) (by decide)

/-- A script verifier is flag-monotone when passing under a flag set
implies passing under any bitwise subset of it (fewer checks cannot
fail more). -/
def FlagMonotone (verify : CTransaction → Nat → Nat → Bool) : Prop :=
  ∀ (tx : CTransaction) (i : Nat) (f g : Nat),
    f &&& g = f → verify tx i g = true → verify tx i f = true

theorem checkInputsScriptLoop_mono (env : Env) (tx : CTransaction)
    (view : OutPoint → Option Coin) (hm : FlagMonotone env.verifyScript)
    (flags f : Nat) (hsub : f &&& flags = f) :
    ∀ (vins : List CTxIn) (i : Nat),
      checkInputsScriptLoop env tx view flags i vins = VState.valid →
      checkInputsScriptLoop env tx view f i vins = VState.valid := by
  intro vins
  induction vins with
  | nil =>
      intro i h
      simp [checkInputsScriptLoop]
  | cons txin rest ih =>
      intro i h
      rw [checkInputsScriptLoop] at h ⊢
      cases hv : view txin.prevout with
      | none =>
          rw [hv] at h
          dsimp at h
          exact absurd h (by simp)
      | some c =>
          rw [hv] at h
          dsimp at h ⊢
          by_cases hs : env.verifyScript tx i flags = true
          · rw [if_pos hs] at h
            rw [if_pos (hm tx i f flags hsub hs)]
            exact ih (i + 1) h
          · rw [if_neg hs] at h
            split_ifs at h

theorem checkInputs_mono (env : Env) (tx : CTransaction)
    (view : OutPoint → Option Coin) (hm : FlagMonotone env.verifyScript)
    (h : CheckInputs env tx view true STANDARD_SCRIPT_VERIFY_FLAGS = VState.valid) :
    CheckInputs env tx view true MANDATORY_SCRIPT_VERIFY_FLAGS = VState.valid := by
  unfold CheckInputs at h ⊢
  by_cases hcb : tx.isCoinBase = true
  · rw [if_pos hcb]
  · rw [if_neg hcb] at h ⊢
    cases hct : CheckTxInputs env tx view env.spendHeight with
    | valid =>
        rw [hct] at h
        dsimp at h ⊢
        exact checkInputsScriptLoop_mono env tx view hm
          STANDARD_SCRIPT_VERIFY_FLAGS MANDATORY_SCRIPT_VERIFY_FLAGS
          (by decide) tx.vin 0 h
    | invalid a b c =>
        rw [hct] at h
        dsimp at h
        exact absurd h (by simp)
    | errored m =>
        rw [hct] at h
        dsimp at h
        exact absurd h (by simp)

set_option maxHeartbeats 1600000 in
theorem worker_bug_anatomy (env : Env) (tx : CTransaction)
    (fLimitFree fOverrideMempoolLimit fRejectAbsurdFee : Bool)
    (hb : (AcceptToMemoryPoolWorker env tx fLimitFree fOverrideMempoolLimit
      fRejectAbsurdFee).bugLogged = true) :
    (AcceptToMemoryPoolWorker env tx fLimitFree fOverrideMempoolLimit
      fRejectAbsurdFee).res = false ∧
    CheckInputs env tx (mempoolView env) true STANDARD_SCRIPT_VERIFY_FLAGS =
      VState.valid ∧
    (AcceptToMemoryPoolWorker env tx fLimitFree fOverrideMempoolLimit
      fRejectAbsurdFee).state =
      CheckInputs env tx (mempoolView env) true MANDATORY_SCRIPT_VERIFY_FLAGS ∧
    CheckInputs env tx (mempoolView env) true MANDATORY_SCRIPT_VERIFY_FLAGS ≠
      VState.valid := by
  unfold AcceptToMemoryPoolWorker at hb ⊢
  cases hs1 : workerStage1 env tx with
  | some s =>
      try rw [hs1] at hb
      simp at hb
  | none =>
      try rw [hs1] at hb
      try rw [hs1]
      dsimp only at hb ⊢
      by_cases g1 : (tx.vin.all fun txin => (mempoolView env txin.prevout).isSome) = false
      · rw [if_pos g1] at hb
        simp at hb
      · rw [if_neg g1] at hb ⊢
        by_cases g2 : CheckSequenceLocks env tx STANDARD_LOCKTIME_VERIFY_FLAGS = false
        · rw [if_pos g2] at hb
          simp at hb
        · rw [if_neg g2] at hb ⊢
          by_cases g3 : env.requireStandard = true ∧ env.areInputsStandard tx = false
          · rw [if_pos g3] at hb
            simp at hb
          · rw [if_neg g3] at hb ⊢
            by_cases g4 : MAX_STANDARD_TX_SIGOPS <
                  GetLegacySigOpCount env tx + GetP2SHSigOpCount env tx (mempoolView env) ∨
                env.bytesPerSigOp ≠ 0 ∧ env.txSize tx / env.bytesPerSigOp <
                  GetLegacySigOpCount env tx + GetP2SHSigOpCount env tx (mempoolView env)
            · rw [if_pos g4] at hb
              simp at hb
            · rw [if_neg g4] at hb ⊢
              by_cases g5 : 0 < env.mempoolMinFee (env.txSize tx) ∧
                  GetValueIn (mempoolView env) tx - GetValueOut tx + env.feeDelta tx.txid <
                    env.mempoolMinFee (env.txSize tx)
              · rw [if_pos g5] at hb
                simp at hb
              · rw [if_neg g5] at hb ⊢
                by_cases g6 : env.relayPriority = true ∧
                    GetValueIn (mempoolView env) tx - GetValueOut tx + env.feeDelta tx.txid <
                      env.minRelayFee (env.txSize tx) ∧ env.allowFree = false
                · rw [if_pos g6] at hb
                  simp at hb
                · rw [if_neg g6] at hb ⊢
                  by_cases g7 : fLimitFree = true ∧
                      GetValueIn (mempoolView env) tx - GetValueOut tx + env.feeDelta tx.txid <
                        env.minRelayFee (env.txSize tx) ∧ env.rateLimited = true
                  · rw [if_pos g7] at hb
                    simp at hb
                  · rw [if_neg g7] at hb ⊢
                    by_cases g8 : fRejectAbsurdFee = true ∧ tx.nVersion = 1 ∧
                        env.minRelayFee (env.txSize tx) * 10000 <
                          GetValueIn (mempoolView env) tx - GetValueOut tx
                    · rw [if_pos g8] at hb
                      simp at hb
                    · rw [if_neg g8] at hb ⊢
                      by_cases g9 : fRejectAbsurdFee = true ∧ tx.nVersion = 2 ∧
                          100000000 < GetValueIn (mempoolView env) tx - GetValueOut tx
                      · rw [if_pos g9] at hb
                        simp at hb
                      · rw [if_neg g9] at hb ⊢
                        cases hc1 : CheckInputs env tx (mempoolView env) true
                            STANDARD_SCRIPT_VERIFY_FLAGS with
                        | valid =>
                            try rw [hc1] at hb
                            try rw [hc1]
                            cases hc2 : CheckInputs env tx (mempoolView env) true
                                MANDATORY_SCRIPT_VERIFY_FLAGS with
                            | valid =>
                                try rw [hc2] at hb
                                dsimp only at hb
                                split_ifs at hb
                            | invalid a b c =>
                                try rw [hc2] at hb
                                try rw [hc2]
                                exact ⟨rfl, rfl, rfl, by simp⟩
                            | errored m =>
                                try rw [hc2] at hb
                                try rw [hc2]
                                exact ⟨rfl, rfl, rfl, by simp⟩
                        | invalid a b c =>
                            try rw [hc1] at hb
                            dsimp only at hb
                            simp at hb
                        | errored m =>
                            try rw [hc1] at hb
                            dsimp only at hb
                            simp at hb

/-- C5: in transaction admission, script verification runs twice; when
the script verifier is flag-monotone and the mandatory flags are a
subset of the standard flags (as they are by construction), a standard-
flag pass implies a mandatory-flag pass; and whenever the second,
mandatory-only pass fails after the standard pass succeeded (the
logged-as-a-bug divergence), the worker rejects the transaction —
returning the mandatory check's failure state, never crashing and never
admitting it. -/
theorem c5_two_pass_script_verification :
    ∀ (env : Env) (tx : CTransaction) (view : OutPoint → Option Coin)
      (fLimitFree fOverrideMempoolLimit fRejectAbsurdFee : Bool),
      (FlagMonotone env.verifyScript →
        CheckInputs env tx view true STANDARD_SCRIPT_VERIFY_FLAGS = VState.valid →
        CheckInputs env tx view true MANDATORY_SCRIPT_VERIFY_FLAGS = VState.valid) ∧
      ((AcceptToMemoryPoolWorker env tx fLimitFree fOverrideMempoolLimit
          fRejectAbsurdFee).bugLogged = true →
        (AcceptToMemoryPoolWorker env tx fLimitFree fOverrideMempoolLimit
          fRejectAbsurdFee).res = false ∧
        CheckInputs env tx (mempoolView env) true STANDARD_SCRIPT_VERIFY_FLAGS =
          VState.valid ∧
        (AcceptToMemoryPoolWorker env tx fLimitFree fOverrideMempoolLimit
          fRejectAbsurdFee).state =
          CheckInputs env tx (mempoolView env) true MANDATORY_SCRIPT_VERIFY_FLAGS ∧
        CheckInputs env tx (mempoolView env) true MANDATORY_SCRIPT_VERIFY_FLAGS ≠
          VState.valid) := by
  intro env tx view fLimitFree fOverrideMempoolLimit fRejectAbsurdFee
  exact ⟨fun hm h => checkInputs_mono env tx view hm h,
         fun hb => worker_bug_anatomy env tx fLimitFree fOverrideMempoolLimit
           fRejectAbsurdFee hb⟩

/-- A concrete environment whose script verifier passes only under the
full standard flag set — deliberately not flag-monotone — so the
mandatory-after-standard divergence is reachable. -/
def envDiverge : Env :=
  { envBase with
    spendHeight := 200,
    baseView := fun o => if o.txHash = 1 then
        some { out := { nValue := 10, scriptPubKey := [] }, nHeight := 3,
               fCoinBase := false }
      else none,
    verifyScript := fun _ _ flags => flags == STANDARD_SCRIPT_VERIFY_FLAGS }

/-- A concrete transaction spending the one coin of envDiverge. -/
def txDiverge : CTransaction :=
  { txBase with
    vin := [{ prevout := { txHash := 1, n := 0 }, scriptSig := [], nSequence := 0 }],
    vout := [{ nValue := 5, scriptPubKey := [] }] }

/-- C5 witness: under envDiverge the divergence is reached and handled
as a rejection carrying the mandatory check's failure state. -/
theorem c5_two_pass_script_verification_witness :
    (AcceptToMemoryPoolWorker envDiverge txDiverge false false false).res = false ∧
    CheckInputs envDiverge txDiverge (mempoolView envDiverge) true
      STANDARD_SCRIPT_VERIFY_FLAGS = VState.valid ∧
    (AcceptToMemoryPoolWorker envDiverge txDiverge false false false).state =
      CheckInputs envDiverge txDiverge (mempoolView envDiverge) true
        MANDATORY_SCRIPT_VERIFY_FLAGS ∧
    CheckInputs envDiverge txDiverge (mempoolView envDiverge) true
      MANDATORY_SCRIPT_VERIFY_FLAGS ≠ VState.valid := by
  exact (c5_two_pass_script_verification envDiverge txDiverge
    (mempoolView envDiverge) false false false).2 rfl

/-- A structurally valid, non-coinbase, non-coinstake transaction that
is not final for the next block (nLockTime 100 ahead of the chain,
non-final sequence) and references a coin that exists nowhere. -/
def txNonFinal : CTransaction :=
  { txBase with
    nLockTime := 100,
    vin := [{ prevout := { txHash := 9, n := 0 }, scriptSig := [], nSequence := 0 }] }

/-- C6 counterexample: the claim as stated is false — this transaction
is structurally valid, neither coinbase nor coinstake, and references a
coin present neither in the view nor in the pool, yet AcceptToMemoryPool
rejects it at the earlier finality gate with missingInputs left false
and the state marked invalid (reason non-final). -/
theorem c6_missing_inputs_counterexample :
    envBase.checkTransaction txNonFinal = true ∧
    txNonFinal.isCoinBase = false ∧
    txNonFinal.isCoinStake = false ∧
    (∃ txin ∈ txNonFinal.vin, mempoolView envBase txin.prevout = none) ∧
    (AcceptToMemoryPool envBase txNonFinal true false false).missing = false ∧
    (AcceptToMemoryPool envBase txNonFinal true false false).res = false ∧
    (AcceptToMemoryPool envBase txNonFinal true false false).state =
      VState.invalid 0 REJECT_NONSTANDARD "non-final" := by
  refine ⟨rfl, rfl, rfl,
    ⟨{ prevout := { txHash := 9, n := 0 }, scriptSig := [], nSequence := 0 },
      by decide, rfl⟩, rfl, rfl, rfl⟩

theorem worker_missing_inputs (env : Env) (tx : CTransaction)
    (fLimitFree fOverrideMempoolLimit fRejectAbsurdFee : Bool)
    (h1 : workerStage1 env tx = none)
    (h2 : (tx.vin.all fun txin => (mempoolView env txin.prevout).isSome) = false) :
    AcceptToMemoryPoolWorker env tx fLimitFree fOverrideMempoolLimit fRejectAbsurdFee =
      { res := false, missing := true, state := VState.valid, pool := env.pool,
        coinsToUncache := (tx.vin.filter
          (fun txin => env.inCoinsCache txin.prevout = false)).map
            (fun txin => txin.prevout),
        bugLogged := false } := by
  unfold AcceptToMemoryPoolWorker
  rw [h1]
  dsimp only
  rw [if_pos h2]

/-- C6 (amended): if a transaction passes the admission gates that
precede the input-existence check (structural validity, not
coinbase/coinstake, standardness, next-block finality, not already in
the pool, no in-pool conflict — i.e. workerStage1 yields no early
rejection) and some input's coin is present neither in the UTXO view
nor among in-pool outputs, then AcceptToMemoryPool reports
missingInputs = true, accepted = false, leaves the state valid (the
transaction is not marked invalid), leaves the mempool unchanged, and
uncaches nothing (the orphan's coins stay cached). -/
theorem c6_missing_inputs_amended :
    ∀ (env : Env) (tx : CTransaction)
      (fLimitFree fOverrideMempoolLimit fRejectAbsurdFee : Bool),
      workerStage1 env tx = none →
      (∃ txin ∈ tx.vin, mempoolView env txin.prevout = none) →
      (AcceptToMemoryPool env tx fLimitFree fOverrideMempoolLimit
        fRejectAbsurdFee).missing = true ∧
      (AcceptToMemoryPool env tx fLimitFree fOverrideMempoolLimit
        fRejectAbsurdFee).res = false ∧
      (AcceptToMemoryPool env tx fLimitFree fOverrideMempoolLimit
        fRejectAbsurdFee).state = VState.valid ∧
      (AcceptToMemoryPool env tx fLimitFree fOverrideMempoolLimit
        fRejectAbsurdFee).pool = env.pool ∧
      (AcceptToMemoryPool env tx fLimitFree fOverrideMempoolLimit
        fRejectAbsurdFee).uncached = [] := by
  intro env tx fLimitFree fOverrideMempoolLimit fRejectAbsurdFee h1 hex
  have h2 : (tx.vin.all fun txin => (mempoolView env txin.prevout).isSome) = false := by
    rcases hex with ⟨txin, hmem, hnone⟩
    rw [List.all_eq_false]
    exact ⟨txin, hmem, by simp [hnone]⟩
  unfold AcceptToMemoryPool
  rw [worker_missing_inputs env tx fLimitFree fOverrideMempoolLimit
    fRejectAbsurdFee h1 h2]
  refine ⟨rfl, rfl, rfl, rfl, ?_⟩
  dsimp only
  rw [if_neg (by simp)]

/-- A structurally valid, final transaction whose only input references
a coin that exists nowhere. -/
def txMissing : CTransaction :=
  { txBase with
    vin := [{ prevout := { txHash := 9, n := 0 }, scriptSig := [], nSequence := 0 }] }

/-- C6 witness: the amended statement at a concrete orphan
transaction. -/
theorem c6_missing_inputs_amended_witness :
    (AcceptToMemoryPool envBase txMissing true false false).missing = true ∧
    (AcceptToMemoryPool envBase txMissing true false false).res = false ∧
    (AcceptToMemoryPool envBase txMissing true false false).state = VState.valid ∧
    (AcceptToMemoryPool envBase txMissing true false false).pool = envBase.pool ∧
    (AcceptToMemoryPool envBase txMissing true false false).uncached = [] := by
  exact c6_missing_inputs_amended envBase txMissing true false false rfl
    ⟨{ prevout := { txHash := 9, n := 0 }, scriptSig := [], nSequence := 0 },
      by decide, rfl⟩

theorem checkBlockTxLoop_some_ne_valid (env : Env) (b : Block) :
    ∀ (l : List CTransaction) (s : VState),
      (checkBlockTxLoop env b l).1 = some s → s ≠ VState.valid := by
  intro l
  induction l with
  | nil =>
      intro s h
      simp [checkBlockTxLoop] at h
  | cons tx rest ih =>
      intro s h
      rw [checkBlockTxLoop] at h
      split_ifs at h <;>
        first
          | (injection h with h; subst h; simp)
          | (dsimp at h; injection h with h; subst h; simp)
          | exact ih s h
  
theorem checkBlockTxLoop_none_inv (env : Env) (b : Block) :
    ∀ (l : List CTransaction),
      (checkBlockTxLoop env b l).1 = none →
      ∀ tx ∈ l, env.checkTransaction tx = true ∧ ¬(b.nTime < (tx.nTime : Int)) := by
  intro l
  induction l with
  | nil =>
      intro h tx hmem
      simp at hmem
  | cons t rest ih =>
      intro h tx hmem
      rw [checkBlockTxLoop] at h
      by_cases g1 : env.checkTransaction t = false
      · rw [if_pos g1] at h
        simp at h
      · rw [if_neg g1] at h
        dsimp at h
        by_cases g2 : b.nTime < (t.nTime : Int)
        · rw [if_pos g2] at h
          simp at h
        · rw [if_neg g2] at h
          dsimp at h
          rcases List.mem_cons.mp hmem with heq | hmem'
          · subst heq
            exact ⟨by simpa using g1, g2⟩
          · exact ih h tx hmem'

theorem checkBlockTxLoop_services_fst (env : Env) (s2 : ServiceEnv) (b : Block) :
    ∀ (l : List CTransaction),
      (checkBlockTxLoop { env with services := s2 } b l).1 =
        (checkBlockTxLoop env b l).1 := by
  intro l
  induction l with
  | nil => rfl
  | cons t rest ih =>
      rw [checkBlockTxLoop, checkBlockTxLoop]
      dsimp only
      by_cases g1 : env.checkTransaction t = false
      · rw [if_pos g1, if_pos g1]
      · rw [if_neg g1, if_neg g1]
        by_cases g2 : b.nTime < (t.nTime : Int)
        · rw [if_pos g2, if_pos g2]
        · rw [if_neg g2, if_neg g2]
          dsimp only
          exact ih

theorem checkBlockTxLoop_requests (env : Env) (b : Block) :
    ∀ (l : List CTransaction),
      (checkBlockTxLoop env b l).1 = none →
      ∀ tx ∈ l, tx.nVersion = 2 →
        env.services.stxLookup tx.serviceReferenceHash = none →
        tx.serviceReferenceHash ∈ (checkBlockTxLoop env b l).2 := by
  intro l
  induction l with
  | nil =>
      intro h tx hmem
      simp at hmem
  | cons t rest ih =>
      intro h tx hmem hver hlook
      rw [checkBlockTxLoop] at h ⊢
      by_cases g1 : env.checkTransaction t = false
      · rw [if_pos g1] at h
        simp at h
      · rw [if_neg g1] at h ⊢
        dsimp only at h ⊢
        by_cases g2 : b.nTime < (t.nTime : Int)
        · rw [if_pos g2] at h
          simp at h
        · rw [if_neg g2] at h ⊢
          dsimp only at h ⊢
          rcases List.mem_cons.mp hmem with heq | hmem'
          · subst heq
            rw [if_pos hver, hlook]
            simp
          · exact List.mem_append_right _ (ih h tx hmem' hver hlook)

/-- The early, pre-coinbase-shape checks of CheckBlock all passing:
proof-of-work (when applicable), header, merkle root, malleability and
size ceilings. -/
def CheckBlockEarlyOk (env : Env) (b : Block) (fCheckPOW fCheckMerkleRoot : Bool) : Prop :=
  ¬(b.isProofOfStake = false ∧ fCheckPOW = true ∧ env.checkProofOfWork b = false) ∧
  ¬(env.checkBlockHeader b fCheckPOW = false) ∧
  ¬(fCheckMerkleRoot = true ∧ b.hashMerkleRoot ≠ (env.blockMerkleRoot b).1) ∧
  ¬(fCheckMerkleRoot = true ∧ (env.blockMerkleRoot b).2 = true) ∧
  ¬(b.vtx = [] ∨ MAX_BLOCK_SIZE < b.vtx.length ∨
    MAX_BLOCK_SIZE < env.blockSerializeSize b)

theorem checkBlock_accept_anatomy (env : Env) (b : Block) (p m : Bool)
    (hfc : b.fChecked = false)
    (hres : (CheckBlock env b p m).1 = VState.valid) :
    b.vtx ≠ [] ∧ firstIsCoinBase b.vtx = true ∧
    (b.vtx.drop 1).any (fun t => t.isCoinBase) = false ∧
    (b.vtx.drop 2).any (fun t => t.isCoinStake) = false ∧
    (checkBlockTxLoop env b b.vtx).1 = none ∧
    (CheckBlock env b p m).2 = (checkBlockTxLoop env b b.vtx).2 := by
  unfold CheckBlock at hres ⊢
  rw [if_neg (by simp [hfc])] at hres ⊢
  by_cases g2 : b.isProofOfStake = false ∧ p = true ∧ env.checkProofOfWork b = false
  · rw [if_pos g2] at hres
    exact absurd hres (by simp)
  · rw [if_neg g2] at hres ⊢
    by_cases g3 : env.checkBlockHeader b p = false
    · rw [if_pos g3] at hres
      exact absurd hres (by simp)
    · rw [if_neg g3] at hres ⊢
      by_cases g4 : m = true ∧ b.hashMerkleRoot ≠ (env.blockMerkleRoot b).1
      · rw [if_pos g4] at hres
        exact absurd hres (by simp)
      · rw [if_neg g4] at hres ⊢
        by_cases g5 : m = true ∧ (env.blockMerkleRoot b).2 = true
        · rw [if_pos g5] at hres
          exact absurd hres (by simp)
        · rw [if_neg g5] at hres ⊢
          by_cases g6 : b.vtx = [] ∨ MAX_BLOCK_SIZE < b.vtx.length ∨
              MAX_BLOCK_SIZE < env.blockSerializeSize b
          · rw [if_pos g6] at hres
            exact absurd hres (by simp)
          · rw [if_neg g6] at hres ⊢
            by_cases g7 : b.vtx = [] ∨ firstIsCoinBase b.vtx = false
            · rw [if_pos g7] at hres
              exact absurd hres (by simp)
            · rw [if_neg g7] at hres ⊢
              by_cases g8 : (b.vtx.drop 1).any (fun t => t.isCoinBase) = true
              · rw [if_pos g8] at hres
                exact absurd hres (by simp)
              · rw [if_neg g8] at hres ⊢
                by_cases g9 : (b.vtx.drop 2).any (fun t => t.isCoinStake) = true
                · rw [if_pos g9] at hres
                  exact absurd hres (by simp)
                · rw [if_neg g9] at hres ⊢
                  by_cases g10 : b.isProofOfStake = true ∧ posCoinbaseShapeBad b = true
                  · rw [if_pos g10] at hres
                    exact absurd hres (by simp)
                  · rw [if_neg g10] at hres ⊢
                    push_neg at g7
                    rcases hl : checkBlockTxLoop env b b.vtx with ⟨or, reqs⟩
                    cases or with
                    | some s =>
                        rw [hl] at hres
                        dsimp only at hres
                        exact absurd hres (checkBlockTxLoop_some_ne_valid env b
                          b.vtx s (by rw [hl]))
                    | none =>
                        rw [hl] at hres
                        dsimp only at hres ⊢
                        by_cases g11 : MAX_BLOCK_SIGOPS < blockSigOps env b
                        · rw [if_pos g11] at hres
                          exact absurd hres (by simp)
                        · rw [if_neg g11] at hres ⊢
                          by_cases g12 : env.checkBlockSignature b = false
                          · rw [if_pos g12] at hres
                            exact absurd hres (by simp)
                          · rw [if_neg g12] at hres ⊢
                            exact ⟨g7.1, by simpa using g7.2, by simpa using g8,
                              by simpa using g9, rfl, rfl⟩

/-- C3: CheckBlock accepts a (not yet cache-marked) block only if the
transaction at index 0 is a coinbase, no transaction at index >= 1 is a
coinbase and no transaction at index >= 2 is a coinstake; and a block
whose early checks pass and which carries a second coinbase is rejected
with reason bad-cb-multiple. -/
theorem c3_checkBlock_coinbase_positions :
    ∀ (env : Env) (b : Block) (fCheckPOW fCheckMerkleRoot : Bool),
      b.fChecked = false →
      ((CheckBlock env b fCheckPOW fCheckMerkleRoot).1 = VState.valid →
        (∃ tx0 rest, b.vtx = tx0 :: rest ∧ tx0.isCoinBase = true) ∧
        (∀ t ∈ b.vtx.drop 1, t.isCoinBase = false) ∧
        (∀ t ∈ b.vtx.drop 2, t.isCoinStake = false)) ∧
      (∀ (tx0 : CTransaction) (rest : List CTransaction),
        b.vtx = tx0 :: rest → tx0.isCoinBase = true →
        (b.vtx.drop 1).any (fun t => t.isCoinBase) = true →
        CheckBlockEarlyOk env b fCheckPOW fCheckMerkleRoot →
        (CheckBlock env b fCheckPOW fCheckMerkleRoot).1 =
          VState.invalid 100 REJECT_INVALID "bad-cb-multiple") := by
  intro env b p m hfc
  constructor
  · intro hres
    obtain ⟨hne, hfirst, hcb, hcs, -, -⟩ :=
      checkBlock_accept_anatomy env b p m hfc hres
    refine ⟨?_, ?_, ?_⟩
    · cases hv : b.vtx with
      | nil => exact absurd hv hne
      | cons tx0 rest =>
          refine ⟨tx0, rest, rfl, ?_⟩
          rw [hv] at hfirst
          exact hfirst
    · intro t ht
      have := List.any_eq_false.mp hcb t ht
      simpa using this
    · intro t ht
      have := List.any_eq_false.mp hcs t ht
      simpa using this
  · intro tx0 rest hvtx hcb0 hany hearly
    obtain ⟨e1, e2, e3, e4, e5⟩ := hearly
    unfold CheckBlock
    rw [if_neg (by simp [hfc]), if_neg e1, if_neg e2, if_neg e3, if_neg e4,
      if_neg e5]
    rw [if_neg (show ¬(b.vtx = [] ∨ firstIsCoinBase b.vtx = false) by
      push_neg
      constructor
      · rw [hvtx]; exact List.cons_ne_nil tx0 rest
      · rw [hvtx]
        show tx0.isCoinBase ≠ false
        simp [hcb0])]
    rw [if_pos hany]

/-- C3 witness: a concrete block with coinbases at indices 0 and 1,
passing all earlier checks, is rejected with bad-cb-multiple. -/
theorem c3_checkBlock_coinbase_positions_witness :
    (CheckBlock envBase
      { vtx := [{ txBase with txid := 1, isCoinBase := true },
                { txBase with txid := 2, isCoinBase := true }],
        hashMerkleRoot := 7, nTime := 100, fChecked := false,
        isProofOfStake := false } true true).1 =
      VState.invalid 100 REJECT_INVALID "bad-cb-multiple" := by
  exact (c3_checkBlock_coinbase_positions envBase
    { vtx := [{ txBase with txid := 1, isCoinBase := true },
              { txBase with txid := 2, isCoinBase := true }],
      hashMerkleRoot := 7, nTime := 100, fChecked := false,
      isProofOfStake := false } true true rfl).2
    { txBase with txid := 1, isCoinBase := true }
    [{ txBase with txid := 2, isCoinBase := true }]
    rfl rfl (by decide)
    ⟨by decide, by decide, by decide, by decide, by decide⟩

/-- C10: a (not yet cache-marked) block containing a transaction whose
own timestamp is strictly later than the block's timestamp is never
accepted by CheckBlock. -/
theorem c10_checkBlock_tx_newer_than_block :
    ∀ (env : Env) (b : Block) (fCheckPOW fCheckMerkleRoot : Bool),
      b.fChecked = false →
      (∃ tx ∈ b.vtx, b.nTime < (tx.nTime : Int)) →
      (CheckBlock env b fCheckPOW fCheckMerkleRoot).1 ≠ VState.valid := by
  intro env b p m hfc hex hres
  obtain ⟨-, -, -, -, hnone, -⟩ := checkBlock_accept_anatomy env b p m hfc hres
  obtain ⟨tx, hmem, ht⟩ := hex
  exact (checkBlockTxLoop_none_inv env b b.vtx hnone tx hmem).2 ht

/-- C10 witness: a concrete block timestamped 10 holding a transaction
timestamped 50 is not accepted. -/
theorem c10_checkBlock_tx_newer_than_block_witness :
    (CheckBlock envBase
      { vtx := [{ txBase with nTime := 50, isCoinBase := true }],
        hashMerkleRoot := 7, nTime := 10, fChecked := false,
        isProofOfStake := false } true true).1 ≠ VState.valid := by
  exact c10_checkBlock_tx_newer_than_block envBase
    { vtx := [{ txBase with nTime := 50, isCoinBase := true }],
      hashMerkleRoot := 7, nTime := 10, fChecked := false,
      isProofOfStake := false } true true rfl
    ⟨{ txBase with nTime := 50, isCoinBase := true }, by decide, by decide⟩

set_option maxHeartbeats 1600000 in
/-- C8: the CheckBlock verdict does not depend on the service-
transaction side channel — neither a locally absent service transaction
nor a failing service validation can reject the block — and on an
accepted block every version-2 transaction whose service transaction is
locally absent has triggered an out-of-band fetch request for its
hash. -/
theorem c8_checkBlock_service_nonfatal :
    ∀ (env : Env) (s2 : ServiceEnv) (b : Block) (fCheckPOW fCheckMerkleRoot : Bool),
      (CheckBlock { env with services := s2 } b fCheckPOW fCheckMerkleRoot).1 =
        (CheckBlock env b fCheckPOW fCheckMerkleRoot).1 ∧
      (b.fChecked = false →
        (CheckBlock env b fCheckPOW fCheckMerkleRoot).1 = VState.valid →
        ∀ tx ∈ b.vtx, tx.nVersion = 2 →
          env.services.stxLookup tx.serviceReferenceHash = none →
          tx.serviceReferenceHash ∈
            (CheckBlock env b fCheckPOW fCheckMerkleRoot).2) := by
  intro env s2 b p m
  constructor
  · unfold CheckBlock
    dsimp only
    rw [show blockSigOps { env with services := s2 } b = blockSigOps env b from rfl]
    by_cases g1 : b.fChecked = true
    · rw [if_pos g1, if_pos g1]
    · rw [if_neg g1, if_neg g1]
      by_cases g2 : b.isProofOfStake = false ∧ p = true ∧ env.checkProofOfWork b = false
      · rw [if_pos g2, if_pos g2]
      · rw [if_neg g2, if_neg g2]
        by_cases g3 : env.checkBlockHeader b p = false
        · rw [if_pos g3, if_pos g3]
        · rw [if_neg g3, if_neg g3]
          by_cases g4 : m = true ∧ b.hashMerkleRoot ≠ (env.blockMerkleRoot b).1
          · rw [if_pos g4, if_pos g4]
          · rw [if_neg g4, if_neg g4]
            by_cases g5 : m = true ∧ (env.blockMerkleRoot b).2 = true
            · rw [if_pos g5, if_pos g5]
            · rw [if_neg g5, if_neg g5]
              by_cases g6 : b.vtx = [] ∨ MAX_BLOCK_SIZE < b.vtx.length ∨
                  MAX_BLOCK_SIZE < env.blockSerializeSize b
              · rw [if_pos g6, if_pos g6]
              · rw [if_neg g6, if_neg g6]
                by_cases g7 : b.vtx = [] ∨ firstIsCoinBase b.vtx = false
                · rw [if_pos g7, if_pos g7]
                · rw [if_neg g7, if_neg g7]
                  by_cases g8 : (b.vtx.drop 1).any (fun t => t.isCoinBase) = true
                  · rw [if_pos g8, if_pos g8]
                  · rw [if_neg g8, if_neg g8]
                    by_cases g9 : (b.vtx.drop 2).any (fun t => t.isCoinStake) = true
                    · rw [if_pos g9, if_pos g9]
                    · rw [if_neg g9, if_neg g9]
                      by_cases g10 : b.isProofOfStake = true ∧ posCoinbaseShapeBad b = true
                      · rw [if_pos g10, if_pos g10]
                      · rw [if_neg g10, if_neg g10]
                        obtain ⟨oA, rA, h1⟩ : ∃ o r,
                            checkBlockTxLoop { env with services := s2 } b b.vtx =
                              (o, r) := ⟨_, _, rfl⟩
                        obtain ⟨oB, rB, h2⟩ : ∃ o r,
                            checkBlockTxLoop env b b.vtx = (o, r) := ⟨_, _, rfl⟩
                        rw [h1, h2]
                        have hor : oA = oB := by
                          have h4 := checkBlockTxLoop_services_fst env s2 b b.vtx
                          rw [h1, h2] at h4
                          exact h4
                        subst hor
                        cases oA with
                        | some s => rfl
                        | none =>
                            dsimp only
                            by_cases g11 : MAX_BLOCK_SIGOPS < blockSigOps env b
                            · rw [if_pos g11, if_pos g11]
                            · rw [if_neg g11, if_neg g11]
                              by_cases g12 : env.checkBlockSignature b = false
                              · rw [if_pos g12, if_pos g12]
                              · rw [if_neg g12, if_neg g12]
  · intro hfc hres tx hmem hver hlook
    obtain ⟨-, -, -, -, hnone, hreq⟩ :=
      checkBlock_accept_anatomy env b p m hfc hres
    rw [hreq]
    exact checkBlockTxLoop_requests env b b.vtx hnone tx hmem hver hlook

/-- A concrete version-2 coinbase referencing service transaction 77. -/
def txService : CTransaction :=
  { txBase with
    nVersion := 2,
    serviceReferenceHash := 77,
    isCoinBase := true }

/-- A concrete block holding only txService. -/
def blockService : Block :=
  { vtx := [txService], hashMerkleRoot := 7, nTime := 100, fChecked := false,
    isProofOfStake := false }

/-- An alternative service oracle that finds every service transaction
and fails its validation. -/
def altServices : ServiceEnv :=
  { stxLookup := fun h => some { stxid := h },
    checkServiceTransaction := fun _ _ => false }

/-- C8 witness: on a concrete accepted block with one version-2
coinbase whose service transaction is absent, the verdict is unchanged
under a different service oracle, and the fetch request for hash 77 is
emitted. -/
theorem c8_checkBlock_service_nonfatal_witness :
    (CheckBlock { envBase with services := altServices } blockService true true).1 =
      (CheckBlock envBase blockService true true).1 ∧
    77 ∈ (CheckBlock envBase blockService true true).2 := by
  constructor
  · exact (c8_checkBlock_service_nonfatal envBase altServices blockService
      true true).1
  · exact (c8_checkBlock_service_nonfatal envBase altServices blockService
      true true).2 rfl rfl txService (by decide) rfl rfl
